import Mathlib

/-!
Verification of the thin-edge.io mapping core against its specification.

The definitions below are a shallow embedding of the Rust sources:
* `crates/core/tedge_mapper/src/c8y/converter.rs` (Cumulocity converter,
  alarm reconciler, SmartREST dispatch),
* `crates/core/tedge_mapper/src/core/mapper.rs` (mapper loop),
* `sm/agent/src/agent.rs` (software-management agent),
* `sm/tedge_sm/src/message.rs`, `software.rs`, `plugin.rs` (data model).

Messages carry a topic, a payload and a retain flag; payloads are modelled
as Lean `String`s, byte identity as string equality.  External collaborators
(JSON codecs, SmartREST serializers, the HTTP proxy, plugins) are passed as
explicit function parameters, so theorems quantify over their behaviour.
-/

/-- An MQTT message: topic name, payload, retain flag.
Mirrors `mqtt_channel::Message`; `Message::new` sets `retain = false`,
`with_retain` sets it to `true`. -/
structure Message where
  topic : String
  payload : String
  retain : Bool
deriving DecidableEq, Repr

/-- `Message::new(topic, payload)` (retain defaults to false). -/
def Message.new (topic payload : String) : Message :=
  ⟨topic, payload, false⟩

/-- `.with_retain()`. -/
def Message.with_retain (m : Message) : Message :=
  { m with retain := true }

/-- Constant `SMARTREST_PUBLISH_TOPIC` ("cloud/out" in the spec). -/
def SMARTREST_PUBLISH_TOPIC : String := "c8y/s/us"

/-- Constant `TEDGE_ALARMS_TOPIC` ("local/alarms/" in the spec). -/
def TEDGE_ALARMS_TOPIC : String := "tedge/alarms/"

/-- Constant `INTERNAL_ALARMS_TOPIC` ("internal/alarms/" in the spec). -/
def INTERNAL_ALARMS_TOPIC : String := "c8y-internal/alarms/"

/-- Constant `TEDGE_MEASUREMENTS_TOPIC` ("local/measurements" in the spec). -/
def TEDGE_MEASUREMENTS_TOPIC : String := "tedge/measurements"

/-- Drop the first `n` characters of a string (used to model
`str::strip_prefix` once the prefix is known to be present). -/
def strDrop (s : String) (n : Nat) : String :=
  ⟨s.toList.drop n⟩

/-- First `n` characters of a string (models the slice `&payload[..3]`). -/
def strTake (s : String) (n : Nat) : String :=
  ⟨s.toList.take n⟩

theorem strDrop_append (s t : String) : strDrop (s ++ t) s.length = t := by
  cases s with
  | mk a =>
    cases t with
    | mk b =>
      show String.mk ((a ++ b).drop a.length) = String.mk b
      rw [List.drop_left]

/-- Association-list lookup, modelling `HashMap::get` / `Entry` lookup
(keys of a `HashMap` are unique). -/
def assocFind (m : List (String × Message)) (k : String) : Option Message :=
  match m with
  | [] => none
  | (k', v) :: rest => if k' = k then some v else assocFind rest k

/-- Association-list removal of a key, modelling `Entry::remove`. -/
def assocErase (m : List (String × Message)) (k : String) :
    List (String × Message) :=
  match m with
  | [] => []
  | (k', v) :: rest => if k' = k then rest else (k', v) :: assocErase rest k

/-- Association-list insert, modelling `HashMap::insert` (replaces any
existing binding of the key). -/
def assocInsert (m : List (String × Message)) (k : String) (v : Message) :
    List (String × Message) :=
  match m with
  | [] => [(k, v)]
  | (k', v') :: rest =>
    if k' = k then (k, v) :: rest else (k', v') :: assocInsert rest k v

theorem assocFind_nil (k : String) : assocFind [] k = none := rfl

theorem assocFind_cons (k' : String) (v' : Message)
    (tl : List (String × Message)) (k : String) :
    assocFind ((k', v') :: tl) k =
      if k' = k then some v' else assocFind tl k := rfl

theorem assocErase_cons (k' : String) (v' : Message)
    (tl : List (String × Message)) (k : String) :
    assocErase ((k', v') :: tl) k =
      if k' = k then tl else (k', v') :: assocErase tl k := rfl

theorem assocFind_eq_none_iff (m : List (String × Message)) (k : String) :
    assocFind m k = none ↔ ∀ v, (k, v) ∉ m := by
  induction m with
  | nil => simp [assocFind_nil]
  | cons hd tl ih =>
    obtain ⟨k', v'⟩ := hd
    rw [assocFind_cons]
    by_cases h : k' = k
    · subst h
      rw [if_pos rfl]
      constructor
      · intro hc
        simp at hc
      · intro hall
        exact absurd (List.mem_cons_self (k', v') tl) (hall v')
    · rw [if_neg h, ih]
      constructor
      · intro hall v hv
        rcases List.mem_cons.mp hv with h1 | h1
        · exact h (congrArg Prod.fst h1).symm
        · exact hall v h1
      · intro hall v hv
        exact hall v (List.mem_cons_of_mem _ hv)

theorem assocFind_assocErase_ne (m : List (String × Message)) (k k' : String)
    (h : k ≠ k') : assocFind (assocErase m k) k' = assocFind m k' := by
  induction m with
  | nil => rfl
  | cons hd tl ih =>
    obtain ⟨a, v⟩ := hd
    rw [assocErase_cons]
    by_cases ha : a = k
    · subst ha
      rw [if_pos rfl, assocFind_cons, if_neg h]
    · rw [if_neg ha, assocFind_cons, assocFind_cons, ih]

theorem assocFind_eq_none_of_not_mem_keys (m : List (String × Message))
    (k : String) (h : k ∉ m.map Prod.fst) : assocFind m k = none := by
  rw [assocFind_eq_none_iff]
  intro v hv
  exact h (List.mem_map_of_mem Prod.fst hv)

theorem assocFind_mem (m : List (String × Message)) (k : String)
    (v : Message) (h : assocFind m k = some v) : (k, v) ∈ m := by
  induction m with
  | nil => simp [assocFind_nil] at h
  | cons hd tl ih =>
    obtain ⟨k', v'⟩ := hd
    rw [assocFind_cons] at h
    by_cases hk : k' = k
    · rw [if_pos hk, Option.some.injEq] at h
      rw [← hk, ← h]
      exact List.mem_cons_self _ _
    · rw [if_neg hk] at h
      exact List.mem_cons_of_mem _ (ih h)

theorem assocErase_sublist (m : List (String × Message)) (k : String) :
    (assocErase m k).Sublist m := by
  induction m with
  | nil => simp [assocErase]
  | cons hd tl ih =>
    obtain ⟨k', v'⟩ := hd
    rw [assocErase_cons]
    by_cases hk : k' = k
    · rw [if_pos hk]
      exact List.sublist_cons_self _ _
    · rw [if_neg hk]
      exact ih.cons₂ _

theorem assoc_key_unique (m : List (String × Message)) (k : String)
    (v w : Message) (h : (m.map Prod.fst).Nodup)
    (hv : (k, v) ∈ m) (hw : (k, w) ∈ m) : v = w := by
  induction m with
  | nil => simp at hv
  | cons hd tl ih =>
    obtain ⟨k', v'⟩ := hd
    have hnd' : (tl.map Prod.fst).Nodup := (List.nodup_cons.mp h).2
    have hni : k' ∉ tl.map Prod.fst := (List.nodup_cons.mp h).1
    simp only [List.mem_cons, Prod.mk.injEq] at hv hw
    rcases hv with ⟨hk1, hv1⟩ | h1 <;> rcases hw with ⟨hk2, hw2⟩ | h2
    · rw [hv1, hw2]
    · exact absurd (hk1 ▸ List.mem_map_of_mem Prod.fst h2) hni
    · exact absurd (hk2 ▸ List.mem_map_of_mem Prod.fst h1) hni
    · exact ih hnd' h1 h2

theorem assocErase_eq_filter (m : List (String × Message)) (k : String)
    (h : (m.map Prod.fst).Nodup) :
    assocErase m k = m.filter (fun p => !(p.1 == k)) := by
  induction m with
  | nil => rfl
  | cons hd tl ih =>
    obtain ⟨k', v'⟩ := hd
    have hnd' : (tl.map Prod.fst).Nodup := (List.nodup_cons.mp h).2
    have hni : k' ∉ tl.map Prod.fst := (List.nodup_cons.mp h).1
    by_cases hk : k' = k
    · subst hk
      rw [assocErase_cons, if_pos rfl]
      simp only [List.filter_cons, beq_self_eq_true, Bool.not_true,
        Bool.false_eq_true, if_false]
      rw [eq_comm, List.filter_eq_self]
      intro p hp
      have hne : p.1 ≠ k' := by
        intro hpk
        exact hni (hpk ▸ List.mem_map_of_mem Prod.fst hp)
      simp [hne]
    · have hbe : (k' == k) = false := beq_eq_false_iff_ne.mpr hk
      simp [assocErase_cons, if_neg hk, List.filter_cons, hbe, ih hnd']
/-- The alarm reconciler state machine
(`enum AlarmConverter` in `converter.rs`): `Syncing` carries the map of
live alarms seen on `tedge/alarms/#` (`pending_alarms_map`) and the map of
previously processed alarms seen on `c8y-internal/alarms/#`
(`old_alarms_map`); `Synced` is the steady state. -/
inductive AlarmConverter where
  | Syncing (pending_alarms_map : List (String × Message))
      (old_alarms_map : List (String × Message))
  | Synced
deriving DecidableEq, Repr

/-- `AlarmConverter::new()`: starts `Syncing` with two empty maps. -/
def AlarmConverter.init : AlarmConverter :=
  AlarmConverter.Syncing [] []

/-- The retained empty clear message re-created by `AlarmConverter::sync`
for an alarm present only in the internal topic:
`Message::new(&topic, vec![]).with_retain()` on `tedge/alarms/<id>`. -/
def clearAlarmMessage (alarm_id : String) : Message :=
  (Message.new (TEDGE_ALARMS_TOPIC ++ alarm_id) "").with_retain

/-- The loop body of `AlarmConverter::sync`: iterate over the drained
`old_alarms_map`; for each entry, if the key is vacant in
`pending_alarms_map` emit a retained empty clear message, and if it is
occupied with a byte-identical payload remove it from the pending map.
Returns the accumulated sync messages and the remaining pending map. -/
def syncLoop : List (String × Message) → List (String × Message) →
    List Message → (List Message × List (String × Message))
  | [], pending, acc => (acc, pending)
  | (alarm_id, old_message) :: old, pending, acc =>
    match assocFind pending alarm_id with
    | none => syncLoop old pending (acc ++ [clearAlarmMessage alarm_id])
    | some entry =>
      if entry.payload = old_message.payload then
        syncLoop old (assocErase pending alarm_id) acc
      else
        syncLoop old pending acc

theorem syncLoop_nil (pending : List (String × Message))
    (acc : List Message) : syncLoop [] pending acc = (acc, pending) := rfl

theorem syncLoop_cons_vacant (alarm_id : String) (old_message : Message)
    (old pending : List (String × Message)) (acc : List Message)
    (h : assocFind pending alarm_id = none) :
    syncLoop ((alarm_id, old_message) :: old) pending acc =
      syncLoop old pending (acc ++ [clearAlarmMessage alarm_id]) := by
  simp [syncLoop, h]

theorem syncLoop_cons_occupied_eq (alarm_id : String)
    (old_message entry : Message) (old pending : List (String × Message))
    (acc : List Message) (h : assocFind pending alarm_id = some entry)
    (he : entry.payload = old_message.payload) :
    syncLoop ((alarm_id, old_message) :: old) pending acc =
      syncLoop old (assocErase pending alarm_id) acc := by
  simp [syncLoop, h, he]

theorem syncLoop_cons_occupied_ne (alarm_id : String)
    (old_message entry : Message) (old pending : List (String × Message))
    (acc : List Message) (h : assocFind pending alarm_id = some entry)
    (he : ¬entry.payload = old_message.payload) :
    syncLoop ((alarm_id, old_message) :: old) pending acc =
      syncLoop old pending acc := by
  simp [syncLoop, h, he]

/-- `AlarmConverter::sync`: compare the two maps and return the messages
to be replayed; the drained pending messages follow the clear messages. -/
def AlarmConverter.sync : AlarmConverter → List Message
  | AlarmConverter.Syncing pending old =>
    let r := syncLoop old pending []
    r.1 ++ r.2.map Prod.snd
  | AlarmConverter.Synced => []

/-- `CumulocityConverter::sync_messages`: returns the reconciler flush and
transitions the reconciler to `Synced`. -/
def sync_messages (a : AlarmConverter) : List Message × AlarmConverter :=
  (a.sync, AlarmConverter.Synced)

/-- A pending entry is dropped by the flush exactly when the old map holds
the same key with a byte-identical payload. -/
def droppedByOld (old : List (String × Message)) (p : String × Message) :
    Bool :=
  match assocFind old p.1 with
  | some old_message => p.2.payload == old_message.payload
  | none => false

/-- Full characterization of the `sync` loop: assuming the `HashMap`
invariant (unique keys in both maps), the loop emits exactly one retained
empty clear message per key of the old map that is absent from the pending
map, and leaves in the pending map exactly the entries whose payload does
not byte-match the old entry of the same key. -/
theorem syncLoop_characterization (old : List (String × Message)) :
    ∀ pending acc, (old.map Prod.fst).Nodup → (pending.map Prod.fst).Nodup →
    syncLoop old pending acc =
      (acc ++ (old.filter (fun p => (assocFind pending p.1).isNone)).map
          (fun p => clearAlarmMessage p.1),
        pending.filter (fun p => !droppedByOld old p)) := by
  induction old with
  | nil =>
    intro pending acc _ _
    rw [syncLoop_nil]
    simp only [List.filter_nil, List.map_nil, List.append_nil,
      Prod.mk.injEq, true_and]
    rw [eq_comm, List.filter_eq_self]
    intro p _
    simp [droppedByOld, assocFind_nil]
  | cons hd tl ih =>
    intro pending acc hnd hp
    obtain ⟨alarm_id, old_message⟩ := hd
    have hnd' : (tl.map Prod.fst).Nodup := (List.nodup_cons.mp hnd).2
    have hni : alarm_id ∉ tl.map Prod.fst := (List.nodup_cons.mp hnd).1
    have hfind_tl : ∀ q : String × Message, q ∈ tl → q.1 ≠ alarm_id := by
      intro q hq hqe
      exact hni (hqe ▸ List.mem_map_of_mem Prod.fst hq)
    have htl_none : assocFind tl alarm_id = none :=
      assocFind_eq_none_of_not_mem_keys tl alarm_id hni
    cases hfind : assocFind pending alarm_id with
    | none =>
      have hnotmem : ∀ v, (alarm_id, v) ∉ pending :=
        (assocFind_eq_none_iff pending alarm_id).mp hfind
      rw [syncLoop_cons_vacant _ _ _ _ _ hfind, ih pending _ hnd' hp]
      simp only [Prod.mk.injEq]
      constructor
      · rw [List.filter_cons_of_pos (by simp [hfind])]
        simp [List.append_assoc]
      · apply List.filter_congr
        intro p hp'
        have hpne : alarm_id ≠ p.1 := by
          intro hpe
          exact hnotmem p.2 (by rw [hpe]; simpa using hp')
        simp only [droppedByOld, assocFind_cons, if_neg hpne]
    | some entry =>
      have hmem : (alarm_id, entry) ∈ pending := assocFind_mem _ _ _ hfind
      by_cases heq : entry.payload = old_message.payload
      · have hpe : (((assocErase pending alarm_id).map Prod.fst)).Nodup :=
          hp.sublist ((assocErase_sublist pending alarm_id).map Prod.fst)
        rw [syncLoop_cons_occupied_eq _ _ entry _ _ _ hfind heq,
          ih _ _ hnd' hpe]
        simp only [Prod.mk.injEq]
        constructor
        · rw [List.filter_cons_of_neg (by simp [hfind])]
          congr 1
          congr 1
          apply List.filter_congr
          intro q hq
          rw [assocFind_assocErase_ne pending alarm_id q.1
            (Ne.symm (hfind_tl q hq))]
        · rw [assocErase_eq_filter pending alarm_id hp, List.filter_filter]
          apply List.filter_congr
          intro p hp'
          by_cases hpk : p.1 = alarm_id
          · -- the unique pending entry under this key has a matching payload
            have hpv : p.2 = entry := by
              have h1 : (alarm_id, p.2) ∈ pending := by
                rw [← hpk]; simpa using hp'
              exact assoc_key_unique pending alarm_id p.2 entry hp h1 hmem
            simp [droppedByOld, assocFind_cons, hpk, hpv, heq]
          · have hne : alarm_id ≠ p.1 := fun h => hpk h.symm
            have hbe : (p.1 == alarm_id) = false := beq_eq_false_iff_ne.mpr hpk
            simp [droppedByOld, assocFind_cons, if_neg hne, hbe]
      · rw [syncLoop_cons_occupied_ne _ _ entry _ _ _ hfind heq,
          ih pending _ hnd' hp]
        simp only [Prod.mk.injEq]
        constructor
        · rw [List.filter_cons_of_neg (by simp [hfind])]
        · apply List.filter_congr
          intro p hp'
          by_cases hpk : p.1 = alarm_id
          · have hpv : p.2 = entry := by
              have h1 : (alarm_id, p.2) ∈ pending := by
                rw [← hpk]; simpa using hp'
              exact assoc_key_unique pending alarm_id p.2 entry hp h1 hmem
            simp [droppedByOld, assocFind_cons, hpk, hpv, heq, htl_none]
          · have hne : alarm_id ≠ p.1 := fun h => hpk h.symm
            simp only [droppedByOld, assocFind_cons, if_neg hne]
/-- `AlarmConverter::process_internal_alarm`: during `Syncing`, a message
from `c8y-internal/alarms/#` is stored in `old_alarms_map`; in `Synced`
it is ignored. -/
def AlarmConverter.process_internal_alarm (a : AlarmConverter)
    (input : Message) : AlarmConverter :=
  match a with
  | AlarmConverter.Syncing pending old =>
    let alarm_id := strDrop input.topic INTERNAL_ALARMS_TOPIC.length
    AlarmConverter.Syncing pending (assocInsert old alarm_id input)
  | AlarmConverter.Synced => AlarmConverter.Synced

/-- `AlarmConverter::try_convert_alarm`.  The composition of
`ThinEdgeAlarm::try_from` and `c8y_smartrest::alarm::serialize_alarm`
(external crates) is the collaborator parameter `serializeAlarm`,
mapping the input topic and payload to the SmartREST alarm line.
During `Syncing` the input is only cached in `pending_alarms_map`;
in `Synced` it is converted to a SmartREST line on `c8y/s/us` plus a
retained copy of the payload on `c8y-internal/alarms/<id>`. -/
def AlarmConverter.try_convert_alarm
    (serializeAlarm : String → String → Except String String)
    (a : AlarmConverter) (input : Message) :
    Except String (List Message × AlarmConverter) :=
  match a with
  | AlarmConverter.Syncing pending old =>
    let alarm_id := strDrop input.topic TEDGE_ALARMS_TOPIC.length
    Except.ok ([], AlarmConverter.Syncing (assocInsert pending alarm_id input) old)
  | AlarmConverter.Synced =>
    match serializeAlarm input.topic input.payload with
    | Except.error e => Except.error e
    | Except.ok smartrest_alarm =>
      let alarm_id := strDrop input.topic TEDGE_ALARMS_TOPIC.length
      Except.ok
        ([Message.new SMARTREST_PUBLISH_TOPIC smartrest_alarm,
          (Message.new (INTERNAL_ALARMS_TOPIC ++ alarm_id)
              input.payload).with_retain],
         AlarmConverter.Synced)

theorem strLength_append (s t : String) :
    (s ++ t).length = s.length + t.length := by
  cases s with
  | mk a =>
    cases t with
    | mk b =>
      show (a ++ b).length = a.length + b.length
      exact List.length_append a b

/-- C1: for a reconciler in the `Syncing` state with maps `prior`
(= `old_alarms_map`, from `c8y-internal/alarms`) and `pending`
(= `pending_alarms_map`, from `tedge/alarms`), the sync flush returns
exactly: a retained empty message on `tedge/alarms/<key>` for each key of
`prior` absent from `pending`; nothing for each key present in both maps
with byte-identical payloads; and the original pending message for each
remaining key of `pending`.  Afterwards the reconciler is `Synced`. -/
theorem claim_C1_sync_flush (pending prior : List (String × Message))
    (hp : (pending.map Prod.fst).Nodup)
    (ho : (prior.map Prod.fst).Nodup) :
    sync_messages (AlarmConverter.Syncing pending prior) =
      ((prior.filter (fun p => (assocFind pending p.1).isNone)).map
          (fun p => clearAlarmMessage p.1)
        ++ (pending.filter (fun p => !droppedByOld prior p)).map Prod.snd,
       AlarmConverter.Synced) := by
  simp only [sync_messages, AlarmConverter.sync]
  rw [syncLoop_characterization prior pending [] ho hp]
  simp

theorem claim_C1_sync_flush_witness :
    (([("critical/temp",
          Message.new "tedge/alarms/critical/temp" "hot")].map
            (Prod.fst (α := String) (β := Message))).Nodup
      ∧ (([("critical/temp",
          Message.new "tedge/alarms/critical/temp" "hot"),
        ("minor/gone", Message.new "c8y-internal/alarms/minor/gone" "x")].map
            (Prod.fst (α := String) (β := Message))).Nodup))
    ∧ sync_messages (AlarmConverter.Syncing
        [("critical/temp", Message.new "tedge/alarms/critical/temp" "hot")]
        [("critical/temp", Message.new "tedge/alarms/critical/temp" "hot"),
         ("minor/gone", Message.new "c8y-internal/alarms/minor/gone" "x")]) =
      ([clearAlarmMessage "minor/gone"], AlarmConverter.Synced) := by
  refine ⟨⟨by decide, by decide⟩, ?_⟩
  rw [claim_C1_sync_flush _ _ (by decide) (by decide)]
  decide

/-- C2: in the `Synced` state, a successfully converted `tedge/alarms`
message yields exactly one SmartREST message on `c8y/s/us` and exactly one
retained message on the matching `c8y-internal/alarms` topic whose payload
is byte-identical to the input payload; the reconciler stays `Synced`. -/
theorem claim_C2_synced_alarm_conversion
    (serializeAlarm : String → String → Except String String)
    (input : Message) (alarm_id smartrest : String)
    (htopic : input.topic = TEDGE_ALARMS_TOPIC ++ alarm_id)
    (hser : serializeAlarm input.topic input.payload =
      Except.ok smartrest) :
    AlarmConverter.try_convert_alarm serializeAlarm
        AlarmConverter.Synced input =
      Except.ok
        ([Message.new SMARTREST_PUBLISH_TOPIC smartrest,
          (Message.new (INTERNAL_ALARMS_TOPIC ++ alarm_id)
              input.payload).with_retain],
         AlarmConverter.Synced)
    ∧ ([Message.new SMARTREST_PUBLISH_TOPIC smartrest,
        (Message.new (INTERNAL_ALARMS_TOPIC ++ alarm_id)
            input.payload).with_retain].filter
          (fun m => m.topic == SMARTREST_PUBLISH_TOPIC)).length = 1
    ∧ ([Message.new SMARTREST_PUBLISH_TOPIC smartrest,
        (Message.new (INTERNAL_ALARMS_TOPIC ++ alarm_id)
            input.payload).with_retain].filter
          (fun m => m.retain
            && (m.topic == INTERNAL_ALARMS_TOPIC ++ alarm_id)
            && (m.payload == input.payload))).length = 1 := by
  have hne : INTERNAL_ALARMS_TOPIC ++ alarm_id ≠ SMARTREST_PUBLISH_TOPIC := by
    intro hcontra
    have hlen := congrArg String.length hcontra
    rw [strLength_append] at hlen
    have h1 : INTERNAL_ALARMS_TOPIC.length = 20 := by decide
    have h2 : SMARTREST_PUBLISH_TOPIC.length = 8 := by decide
    omega
  refine ⟨?_, ?_, ?_⟩
  · unfold AlarmConverter.try_convert_alarm
    rw [hser, htopic, strDrop_append]
  · have hbne : ((INTERNAL_ALARMS_TOPIC ++ alarm_id : String)
        == SMARTREST_PUBLISH_TOPIC) = false := beq_eq_false_iff_ne.mpr hne
    simp [Message.new, Message.with_retain, List.filter, hbne]
  · simp [Message.new, Message.with_retain, List.filter]

theorem claim_C2_synced_alarm_conversion_witness :
    ((Message.new "tedge/alarms/critical/temp" "hot").topic =
        TEDGE_ALARMS_TOPIC ++ "critical/temp"
      ∧ (fun _ p => Except.ok ("302,temp," ++ p) :
            String → String → Except String String)
          (Message.new "tedge/alarms/critical/temp" "hot").topic
          (Message.new "tedge/alarms/critical/temp" "hot").payload =
        Except.ok "302,temp,hot")
    ∧ AlarmConverter.try_convert_alarm
        (fun _ p => Except.ok ("302,temp," ++ p))
        AlarmConverter.Synced
        (Message.new "tedge/alarms/critical/temp" "hot") =
      Except.ok
        ([Message.new SMARTREST_PUBLISH_TOPIC "302,temp,hot",
          (Message.new (INTERNAL_ALARMS_TOPIC ++ "critical/temp")
              "hot").with_retain],
         AlarmConverter.Synced) := by
  refine ⟨⟨by decide, rfl⟩, ?_⟩
  exact (claim_C2_synced_alarm_conversion
    (fun _ p => Except.ok ("302,temp," ++ p))
    (Message.new "tedge/alarms/critical/temp" "hot")
    "critical/temp" "302,temp,hot" (by decide) rfl).1
/-- Output topic of converted measurements
(`mapper_config.out_topic` = `c8y/measurement/measurements/create`). -/
def MEASUREMENTS_OUT_TOPIC : String := "c8y/measurement/measurements/create"

/-- `mapper_config.errors_topic` (`tedge/errors`). -/
def ERRORS_TOPIC : String := "tedge/errors"

/-- The head of child-measurement topics, `tedge/measurements/`. -/
def MEASUREMENT_CHILD_TOPIC_HEAD : String := "tedge/measurements/"

/-- `ConversionError` of the mapper (`crate::mapper::error`). -/
inductive ConversionError where
  | SizeExceeded (actual threshold : Nat)
  | InvalidChildId (id : String)
  | InvalidThinEdgeJson (reason : String)
  | InvalidAlarm (reason : String)
  | UnsupportedTopic (topic : String)
deriving DecidableEq, Repr

/-- Display rendering of a conversion error.  For `SizeExceeded` the text is
the one asserted by the repository's own test
(`check_c8y_threshold_packet_size`); translator errors render their inner
reason. -/
def renderConversionError : ConversionError → String
  | ConversionError.SizeExceeded actual threshold =>
    "The input size " ++ toString actual ++
      " is too big. The threshold is " ++ toString threshold ++ "."
  | ConversionError.InvalidChildId id => "Invalid child id: " ++ id
  | ConversionError.InvalidThinEdgeJson reason => reason
  | ConversionError.InvalidAlarm reason => reason
  | ConversionError.UnsupportedTopic topic => "Unsupported topic: " ++ topic

/-- `str::starts_with p` for strings. -/
def strHasHead (p s : String) : Bool :=
  decide (s.toList.take p.toList.length = p.toList)

theorem strHasHead_append (p t : String) : strHasHead p (p ++ t) = true := by
  cases p with
  | mk a =>
    cases t with
    | mk b =>
      show decide ((a ++ b).take a.length = a) = true
      rw [List.take_left]
      simp

theorem strHead_split (p s : String) (h : strHasHead p s = true) :
    s = p ++ strDrop s p.length := by
  cases p with
  | mk a =>
    cases s with
    | mk b =>
      have htake : b.take a.length = a := by
        have := of_decide_eq_true h
        exact this
      show String.mk b = String.mk (a ++ b.drop a.length)
      conv_lhs => rw [← List.take_append_drop a.length b]
      rw [htake]

/-- `get_child_id_from_topic`: strip `tedge/measurements/`; an empty
remainder is an invalid child id, no match means the root device. -/
def get_child_id_from_topic (topic : String) :
    Except ConversionError (Option String) :=
  if strHasHead MEASUREMENT_CHILD_TOPIC_HEAD topic then
    let maybe_id := strDrop topic MEASUREMENT_CHILD_TOPIC_HEAD.length
    if maybe_id = "" then
      Except.error (ConversionError.InvalidChildId maybe_id)
    else Except.ok (some maybe_id)
  else Except.ok none

/-- The SmartREST 101 child-creation line
`101,<id>,<id>,thin-edge.io-child`. -/
def child101Message (child_id : String) : Message :=
  Message.new SMARTREST_PUBLISH_TOPIC
    ("101," ++ child_id ++ "," ++ child_id ++ ",thin-edge.io-child")

/-- `CumulocityConverter::try_convert_measurement`.  The collaborators
`translateRoot` / `translateChild` stand for
`c8y_translator::json::from_thin_edge_json` and
`from_thin_edge_json_with_child` (external crate).  The child-device set
is threaded explicitly: on a child topic the payload is validated first;
only then, if the child id is new, it is inserted and the 101 line is
pushed before the converted cloud JSON. -/
def try_convert_measurement
    (translateRoot : String → Except String String)
    (translateChild : String → String → Except String String)
    (children : List String) (input : Message) :
    Except ConversionError (List String × List Message) :=
  match get_child_id_from_topic input.topic with
  | Except.error e => Except.error e
  | Except.ok (some child_id) =>
    match translateChild input.payload child_id with
    | Except.error reason =>
      Except.error (ConversionError.InvalidThinEdgeJson reason)
    | Except.ok c8y_json_child_payload =>
      if children.contains child_id then
        Except.ok (children,
          [Message.new MEASUREMENTS_OUT_TOPIC c8y_json_child_payload])
      else
        Except.ok (child_id :: children,
          [child101Message child_id,
           Message.new MEASUREMENTS_OUT_TOPIC c8y_json_child_payload])
  | Except.ok none =>
    match translateRoot input.payload with
    | Except.error reason =>
      Except.error (ConversionError.InvalidThinEdgeJson reason)
    | Except.ok c8y_json_payload =>
      Except.ok (children,
        [Message.new MEASUREMENTS_OUT_TOPIC c8y_json_payload])

/-- Modelled from the spec: the `Converter::convert` wrapper (its source,
`crate::mapper::converter`, is not under `src/`; only its caller
`core/mapper.rs` and the tests are).  Per the spec's recovery policy, a
per-message conversion error produces exactly one message on
`tedge/errors` carrying the error's rendering, and the converter state is
left unchanged.  Restricted here to the measurement path. -/
def measurementStep
    (translateRoot : String → Except String String)
    (translateChild : String → String → Except String String)
    (children : List String) (input : Message) :
    List String × List Message :=
  match try_convert_measurement translateRoot translateChild children input with
  | Except.ok r => r
  | Except.error e =>
    (children, [Message.new ERRORS_TOPIC (renderConversionError e)])

/-- Iterated `measurementStep` over a list of inbound messages: the list of
per-message outputs plus the final child-device set. -/
def runMeasurements
    (translateRoot : String → Except String String)
    (translateChild : String → String → Except String String) :
    List String → List Message → List (List Message) × List String
  | children, [] => ([], children)
  | children, m :: ms =>
    let r := measurementStep translateRoot translateChild children m
    let rest := runMeasurements translateRoot translateChild r.1 ms
    (r.2 :: rest.1, rest.2)

/-- A message is a successful child-measurement conversion for child `c`
under the child translator `tc`. -/
def childConvOf (tc : String → String → Except String String)
    (c : String) (m : Message) : Prop :=
  m.topic = MEASUREMENT_CHILD_TOPIC_HEAD ++ c ∧ c ≠ "" ∧
    ∃ j, tc m.payload c = Except.ok j
theorem strAppend_left_cancel (p a b : String) (h : p ++ a = p ++ b) :
    a = b := by
  cases p with
  | mk l =>
    cases a with
    | mk x =>
      cases b with
      | mk y =>
        have hd : l ++ x = l ++ y := congrArg String.data h
        rw [List.append_cancel_left hd]

theorem List.contains_eq_false_of_not_mem {l : List String} {a : String}
    (h : a ∉ l) : l.contains a = false := by
  simp [List.elem_eq_mem, h, List.contains]

theorem List.contains_eq_true_of_mem {l : List String} {a : String}
    (h : a ∈ l) : l.contains a = true := by
  simp [List.elem_eq_mem, h, List.contains]

theorem get_child_id_on_child_topic (c : String) (hc : c ≠ "") :
    get_child_id_from_topic (MEASUREMENT_CHILD_TOPIC_HEAD ++ c) =
      Except.ok (some c) := by
  unfold get_child_id_from_topic
  rw [strHasHead_append, if_pos rfl, strDrop_append, if_neg hc]

theorem try_convert_measurement_new_child
    (translateRoot : String → Except String String)
    (translateChild : String → String → Except String String)
    (children : List String) (input : Message) (c j : String)
    (ht : input.topic = MEASUREMENT_CHILD_TOPIC_HEAD ++ c) (hc : c ≠ "")
    (hj : translateChild input.payload c = Except.ok j)
    (hnew : c ∉ children) :
    try_convert_measurement translateRoot translateChild children input =
      Except.ok (c :: children,
        [child101Message c, Message.new MEASUREMENTS_OUT_TOPIC j]) := by
  have hcont := List.contains_eq_false_of_not_mem hnew
  simp [try_convert_measurement, ht, get_child_id_on_child_topic c hc, hj,
    hcont, hnew]

theorem try_convert_measurement_known_child
    (translateRoot : String → Except String String)
    (translateChild : String → String → Except String String)
    (children : List String) (input : Message) (c j : String)
    (ht : input.topic = MEASUREMENT_CHILD_TOPIC_HEAD ++ c) (hc : c ≠ "")
    (hj : translateChild input.payload c = Except.ok j)
    (hseen : c ∈ children) :
    try_convert_measurement translateRoot translateChild children input =
      Except.ok (children, [Message.new MEASUREMENTS_OUT_TOPIC j]) := by
  have hcont := List.contains_eq_true_of_mem hseen
  simp [try_convert_measurement, ht, get_child_id_on_child_topic c hc, hj,
    hcont, hseen]

theorem try_convert_measurement_invalid_child_payload
    (translateRoot : String → Except String String)
    (translateChild : String → String → Except String String)
    (children : List String) (input : Message) (c reason : String)
    (ht : input.topic = MEASUREMENT_CHILD_TOPIC_HEAD ++ c) (hc : c ≠ "")
    (hr : translateChild input.payload c = Except.error reason) :
    try_convert_measurement translateRoot translateChild children input =
      Except.error (ConversionError.InvalidThinEdgeJson reason) := by
  simp [try_convert_measurement, ht, get_child_id_on_child_topic c hc, hr]

theorem runMeasurements_length
    (translateRoot : String → Except String String)
    (translateChild : String → String → Except String String)
    (ms : List Message) :
    ∀ children,
      (runMeasurements translateRoot translateChild children ms).1.length =
        ms.length := by
  induction ms with
  | nil => intro children; rfl
  | cons m ms ih =>
    intro children
    simp only [runMeasurements, List.length_cons, ih]

/-- A single step adds `c` to the child-device set iff the message is a
successful child-measurement conversion for `c` (and keeps every id that
was already present). -/
theorem measurementStep_children_mem
    (translateRoot : String → Except String String)
    (translateChild : String → String → Except String String)
    (children : List String) (m : Message) (c : String) :
    c ∈ (measurementStep translateRoot translateChild children m).1 ↔
      c ∈ children ∨ childConvOf translateChild c m := by
  by_cases hhead : strHasHead MEASUREMENT_CHILD_TOPIC_HEAD m.topic = true
  · have hsplit : m.topic = MEASUREMENT_CHILD_TOPIC_HEAD ++
        strDrop m.topic MEASUREMENT_CHILD_TOPIC_HEAD.length :=
      strHead_split _ _ hhead
    set id := strDrop m.topic MEASUREMENT_CHILD_TOPIC_HEAD.length with hid
    by_cases hempty : id = ""
    · have hget : get_child_id_from_topic m.topic =
          Except.error (ConversionError.InvalidChildId id) := by
        unfold get_child_id_from_topic
        rw [← hid, if_pos hhead, if_pos hempty]
      have hnoconv : ¬ childConvOf translateChild c m := by
        rintro ⟨htc, hcne, -⟩
        apply hcne
        have : MEASUREMENT_CHILD_TOPIC_HEAD ++ c =
            MEASUREMENT_CHILD_TOPIC_HEAD ++ id := by
          rw [← htc, ← hsplit]
        rw [strAppend_left_cancel _ _ _ this, hempty]
      simp [measurementStep, try_convert_measurement, hget, hnoconv]
    · have hget : get_child_id_from_topic m.topic = Except.ok (some id) := by
        unfold get_child_id_from_topic
        rw [← hid, if_pos hhead, if_neg hempty]
      cases htc : translateChild m.payload id with
      | error reason =>
        have hnoconv : ¬ childConvOf translateChild c m := by
          rintro ⟨htopic, hcne, j, hj⟩
          have hcid : c = id := by
            apply strAppend_left_cancel MEASUREMENT_CHILD_TOPIC_HEAD
            rw [← htopic, ← hsplit]
          rw [hcid] at hj
          rw [htc] at hj
          exact Except.noConfusion hj
        simp [measurementStep, try_convert_measurement, hget, htc, hnoconv]
      | ok j =>
        have hconv_iff : childConvOf translateChild c m ↔ c = id := by
          constructor
          · rintro ⟨htopic, hcne, j', hj'⟩
            apply strAppend_left_cancel MEASUREMENT_CHILD_TOPIC_HEAD
            rw [← htopic, ← hsplit]
          · intro hcid
            subst hcid
            exact ⟨hsplit, hempty, j, htc⟩
        by_cases hseen : id ∈ children
        · have := List.contains_eq_true_of_mem hseen
          simp only [measurementStep, try_convert_measurement, hget, htc,
            this, if_true]
          constructor
          · intro h; exact Or.inl h
          · rintro (h | h)
            · exact h
            · rw [hconv_iff.mp h]; exact hseen
        · have := List.contains_eq_false_of_not_mem hseen
          simp only [measurementStep, try_convert_measurement, hget, htc,
            this, Bool.false_eq_true, if_false, List.mem_cons]
          constructor
          · rintro (h | h)
            · exact Or.inr (hconv_iff.mpr h)
            · exact Or.inl h
          · rintro (h | h)
            · exact Or.inr h
            · exact Or.inl (hconv_iff.mp h)
  · have hget : get_child_id_from_topic m.topic = Except.ok none := by
      unfold get_child_id_from_topic
      rw [if_neg hhead]
    have hnoconv : ¬ childConvOf translateChild c m := by
      rintro ⟨htopic, -, -⟩
      apply hhead
      rw [htopic]
      exact strHasHead_append _ _
    cases htr : translateRoot m.payload with
    | error reason =>
      simp [measurementStep, try_convert_measurement, hget, htr, hnoconv]
    | ok j =>
      simp [measurementStep, try_convert_measurement, hget, htr, hnoconv]

/-- Over a whole run, the child-device set contains exactly the initial ids
plus the ids of the successful child conversions processed so far. -/
theorem runMeasurements_children_mem
    (translateRoot : String → Except String String)
    (translateChild : String → String → Except String String)
    (ms : List Message) :
    ∀ children c,
      c ∈ (runMeasurements translateRoot translateChild children ms).2 ↔
        c ∈ children ∨ ∃ m ∈ ms, childConvOf translateChild c m := by
  induction ms with
  | nil => intro children c; simp [runMeasurements]
  | cons m ms ih =>
    intro children c
    simp only [runMeasurements]
    rw [ih]
    rw [measurementStep_children_mem]
    simp only [List.mem_cons]
    constructor
    · rintro ((h | h) | ⟨m', hm', hc'⟩)
      · exact Or.inl h
      · exact Or.inr ⟨m, Or.inl rfl, h⟩
      · exact Or.inr ⟨m', Or.inr hm', hc'⟩
    · rintro (h | ⟨m', (rfl | hm'), hc'⟩)
      · exact Or.inl (Or.inl h)
      · exact Or.inl (Or.inr hc')
      · exact Or.inr ⟨m', hm', hc'⟩
/-- The output block at index `i` of a run is the step output computed in
the child-device set reached after the first `i` messages. -/
theorem runMeasurements_get
    (translateRoot : String → Except String String)
    (translateChild : String → String → Except String String)
    (ms : List Message) :
    ∀ (children : List String) (i : Nat) (hi : i < ms.length),
      (runMeasurements translateRoot translateChild children ms).1.get
          ⟨i, by rw [runMeasurements_length]; exact hi⟩ =
        (measurementStep translateRoot translateChild
          (runMeasurements translateRoot translateChild children
            (ms.take i)).2
          (ms.get ⟨i, hi⟩)).2 := by
  induction ms with
  | nil =>
    intro children i hi
    exact absurd hi (Nat.not_lt_zero i)
  | cons m ms ih =>
    intro children i hi
    cases i with
    | zero =>
      simp [runMeasurements]
    | succ i' =>
      have hi' : i' < ms.length := Nat.lt_of_succ_lt_succ hi
      have := ih (measurementStep translateRoot translateChild children m).1
        i' hi'
      simp only [runMeasurements, List.take_succ_cons]
      exact this

/-- C3: starting from the empty child-device set, the first successful
child-measurement conversion for child `c` outputs the SmartREST
`101,c,c,thin-edge.io-child` line on `c8y/s/us` positioned before the
converted cloud JSON, and every later successful conversion for the same
`c` outputs only the cloud JSON, with no 101 line. -/
theorem claim_C3_first_child_conversion
    (translateRoot : String → Except String String)
    (translateChild : String → String → Except String String)
    (ms : List Message) (i : Nat) (c j : String)
    (hi : i < ms.length)
    (ht : (ms.get ⟨i, hi⟩).topic = MEASUREMENT_CHILD_TOPIC_HEAD ++ c)
    (hc : c ≠ "")
    (hj : translateChild (ms.get ⟨i, hi⟩).payload c = Except.ok j)
    (hfirst : ∀ m ∈ ms.take i, ¬ childConvOf translateChild c m) :
    (runMeasurements translateRoot translateChild [] ms).1.get
        ⟨i, by rw [runMeasurements_length]; exact hi⟩ =
      [child101Message c, Message.new MEASUREMENTS_OUT_TOPIC j]
    ∧ ∀ (l : Nat) (hl : l < ms.length), i < l →
        ∀ j', (ms.get ⟨l, hl⟩).topic = MEASUREMENT_CHILD_TOPIC_HEAD ++ c →
          translateChild (ms.get ⟨l, hl⟩).payload c = Except.ok j' →
          (runMeasurements translateRoot translateChild [] ms).1.get
              ⟨l, by rw [runMeasurements_length]; exact hl⟩ =
            [Message.new MEASUREMENTS_OUT_TOPIC j'] := by
  constructor
  · rw [runMeasurements_get]
    have hnotin : c ∉ (runMeasurements translateRoot translateChild []
        (ms.take i)).2 := by
      rw [runMeasurements_children_mem]
      rintro (h | ⟨m', hm', hc'⟩)
      · simp at h
      · exact hfirst m' hm' hc'
    rw [measurementStep,
      try_convert_measurement_new_child translateRoot translateChild _ _ c j
        ht hc hj hnotin]
  · intro l hl hil j' ht' hj'
    rw [runMeasurements_get]
    have hin : c ∈ (runMeasurements translateRoot translateChild []
        (ms.take l)).2 := by
      rw [runMeasurements_children_mem]
      refine Or.inr ⟨ms.get ⟨i, hi⟩, ?_, ht, hc, j, hj⟩
      have hlen : i < (ms.take l).length := by
        rw [List.length_take]
        exact lt_min hil hi
      have : (ms.take l).get ⟨i, hlen⟩ = ms.get ⟨i, hi⟩ := by
        simp [List.get_take]
      rw [← this]
      exact List.get_mem _ i hlen
    rw [measurementStep,
      try_convert_measurement_known_child translateRoot translateChild _ _ c
        j' ht' hc hj' hin]

theorem claim_C3_first_child_conversion_witness :
    ((0 : Nat) < ([Message.new "tedge/measurements/child1" "x",
        Message.new "tedge/measurements/child1" "y"] : List Message).length)
    ∧ ((runMeasurements (fun p => Except.ok p)
          (fun p c => Except.ok (p ++ c)) []
          [Message.new "tedge/measurements/child1" "x",
           Message.new "tedge/measurements/child1" "y"]).1.get
          ⟨0, by rw [runMeasurements_length]; decide⟩ =
        [child101Message "child1",
         Message.new MEASUREMENTS_OUT_TOPIC "xchild1"]
      ∧ ∀ (l : Nat)
          (hl : l < ([Message.new "tedge/measurements/child1" "x",
            Message.new "tedge/measurements/child1" "y"] :
              List Message).length), 0 < l →
          ∀ j', (([Message.new "tedge/measurements/child1" "x",
              Message.new "tedge/measurements/child1" "y"] :
                List Message).get ⟨l, hl⟩).topic =
              MEASUREMENT_CHILD_TOPIC_HEAD ++ "child1" →
            (fun p c => Except.ok (p ++ c) :
                String → String → Except String String)
              (([Message.new "tedge/measurements/child1" "x",
                Message.new "tedge/measurements/child1" "y"] :
                  List Message).get ⟨l, hl⟩).payload "child1" =
              Except.ok j' →
            (runMeasurements (fun p => Except.ok p)
                (fun p c => Except.ok (p ++ c)) []
                [Message.new "tedge/measurements/child1" "x",
                 Message.new "tedge/measurements/child1" "y"]).1.get
                ⟨l, by rw [runMeasurements_length]; exact hl⟩ =
              [Message.new MEASUREMENTS_OUT_TOPIC j']) :=
  ⟨by decide,
    claim_C3_first_child_conversion (fun p => Except.ok p)
      (fun p c => Except.ok (p ++ c))
      [Message.new "tedge/measurements/child1" "x",
       Message.new "tedge/measurements/child1" "y"]
      0 "child1" "xchild1" (by decide) (by decide) (by decide) rfl
      (by intro m hm; simp at hm)⟩
/-- C10: a child measurement whose payload fails validation does not touch
the child-device set (the conversion errors out before the insert), so a
later valid measurement from the same child still emits the 101
child-creation line as its first output; the child id is inserted only
after the payload has been validated. -/
theorem claim_C10_no_insert_on_invalid_payload
    (translateRoot : String → Except String String)
    (translateChild : String → String → Except String String)
    (children : List String) (m1 m2 : Message) (c reason j : String)
    (h1t : m1.topic = MEASUREMENT_CHILD_TOPIC_HEAD ++ c) (hc : c ≠ "")
    (h1p : translateChild m1.payload c = Except.error reason)
    (h2t : m2.topic = MEASUREMENT_CHILD_TOPIC_HEAD ++ c)
    (h2p : translateChild m2.payload c = Except.ok j)
    (hnew : c ∉ children) :
    try_convert_measurement translateRoot translateChild children m1 =
      Except.error (ConversionError.InvalidThinEdgeJson reason)
    ∧ measurementStep translateRoot translateChild children m1 =
      (children, [Message.new ERRORS_TOPIC reason])
    ∧ try_convert_measurement translateRoot translateChild
        (measurementStep translateRoot translateChild children m1).1 m2 =
      Except.ok (c :: children,
        [child101Message c, Message.new MEASUREMENTS_OUT_TOPIC j]) := by
  have h1 := try_convert_measurement_invalid_child_payload translateRoot
    translateChild children m1 c reason h1t hc h1p
  have h2 : measurementStep translateRoot translateChild children m1 =
      (children, [Message.new ERRORS_TOPIC reason]) := by
    simp [measurementStep, h1, renderConversionError]
  refine ⟨h1, h2, ?_⟩
  rw [h2]
  exact try_convert_measurement_new_child translateRoot translateChild
    children m2 c j h2t hc h2p hnew

theorem claim_C10_no_insert_on_invalid_payload_witness :
    ((Message.new "tedge/measurements/child1" "").topic =
        MEASUREMENT_CHILD_TOPIC_HEAD ++ "child1"
      ∧ (Message.new "tedge/measurements/child1" "y").topic =
        MEASUREMENT_CHILD_TOPIC_HEAD ++ "child1")
    ∧ try_convert_measurement (fun p => Except.ok p)
        (fun p c => if p.length = 0 then Except.error "Invalid JSON"
          else Except.ok (p ++ c)) []
        (Message.new "tedge/measurements/child1" "") =
      Except.error (ConversionError.InvalidThinEdgeJson "Invalid JSON")
    ∧ measurementStep (fun p => Except.ok p)
        (fun p c => if p.length = 0 then Except.error "Invalid JSON"
          else Except.ok (p ++ c)) []
        (Message.new "tedge/measurements/child1" "") =
      ([], [Message.new ERRORS_TOPIC "Invalid JSON"])
    ∧ try_convert_measurement (fun p => Except.ok p)
        (fun p c => if p.length = 0 then Except.error "Invalid JSON"
          else Except.ok (p ++ c))
        (measurementStep (fun p => Except.ok p)
          (fun p c => if p.length = 0 then Except.error "Invalid JSON"
            else Except.ok (p ++ c)) []
          (Message.new "tedge/measurements/child1" "")).1
        (Message.new "tedge/measurements/child1" "y") =
      Except.ok (["child1"],
        [child101Message "child1",
         Message.new MEASUREMENTS_OUT_TOPIC "ychild1"]) := by
  refine ⟨⟨by decide, by decide⟩, ?_⟩
  exact claim_C10_no_insert_on_invalid_payload (fun p => Except.ok p)
    (fun p c => if p.length = 0 then Except.error "Invalid JSON"
      else Except.ok (p ++ c)) []
    (Message.new "tedge/measurements/child1" "")
    (Message.new "tedge/measurements/child1" "y")
    "child1" "Invalid JSON" "ychild1"
    (by decide) (by decide) rfl (by decide) rfl (by simp)
/-! ## Software-management agent (`sm/agent/src/agent.rs`) -/

/-- `SoftwareOperationResultStatus` (`sm/tedge_sm/src/message.rs`). -/
inductive SoftwareOperationResultStatus where
  | Successful
  | Failed
  | Executing
deriving DecidableEq, Repr

/-- `SoftwareListModule`. -/
structure SoftwareListModule where
  software_type : String
  name : String
  version : Option String
deriving DecidableEq, Repr

/-- `SoftwareListResponseList`: the per-plugin-type block of a software
list or failures list. -/
structure SoftwareListResponseList where
  plugin_type : String
  list : List SoftwareListModule
deriving DecidableEq, Repr

/-- `SoftwareRequestResponse` as used by `agent.rs` (the fields of
`SoftwareResponseUpdateStatus` in `message.rs`). -/
structure SoftwareRequestResponse where
  id : Nat
  status : SoftwareOperationResultStatus
  reason : Option String
  current_software_list : Option (List SoftwareListResponseList)
  failures : Option (List SoftwareListResponseList)
deriving DecidableEq, Repr

/-- `State` of the persistent operation journal
(`crate::state::State`: optional operation id and kind). -/
structure AgentState where
  operation_id : Option Nat
  operation : Option String
deriving DecidableEq, Repr

/-- Observable actions of the agent: journal writes/clears and MQTT
publications (structured responses, or raw error text). -/
inductive AgentEvent where
  | storeState (st : AgentState)
  | publish (topic : String) (response : SoftwareRequestResponse)
  | publishRaw (topic : String) (payload : String)
  | clearState
deriving DecidableEq, Repr

/-- `SmAgentConfig::default().response_topic_list`. -/
def RESPONSE_TOPIC_LIST : String := "tedge/commands/res/software/list"

/-- `SmAgentConfig::default().response_topic_update`. -/
def RESPONSE_TOPIC_UPDATE : String := "tedge/commands/res/software/update"

/-- `SoftwareOperation` as matched by `agent.rs` (list / update /
unknown). -/
inductive SoftwareOperation where
  | CurrentSoftwareList
  | SoftwareUpdates
  | UnknownOperation
deriving DecidableEq, Repr

/-- Modelled from the spec: `SoftwareOperation::from_str` (the `FromStr`
implementation used by `agent.rs` is not under `src/`; `software.rs` only
has the topic-based conversion).  The journal `kind` strings are `list`
and `update`; anything else is an unknown operation. -/
def softwareOperationFromStr (s : String) : SoftwareOperation :=
  if s = "list" then SoftwareOperation.CurrentSoftwareList
  else if s = "update" then SoftwareOperation.SoftwareUpdates
  else SoftwareOperation.UnknownOperation

/-- Response topic chosen by `check_state_store` for a journal kind. -/
def responseTopicFor : SoftwareOperation → String
  | SoftwareOperation.CurrentSoftwareList => RESPONSE_TOPIC_LIST
  | SoftwareOperation.SoftwareUpdates => RESPONSE_TOPIC_UPDATE
  | SoftwareOperation.UnknownOperation => ERRORS_TOPIC

/-- `SmAgent::check_state_store`: load the journal (a load error counts as
an empty state); if it holds a live entry, publish a `Failed` response
with reason `unfinished operation request` and that id on the kind's
response topic.  The function performs no journal write and no clear. -/
def check_state_store (loaded : Except Unit AgentState) : List AgentEvent :=
  let state := match loaded with
    | Except.ok s => s
    | Except.error _ => AgentState.mk none none
  match state.operation_id, state.operation with
  | some id, some operation_string =>
    [AgentEvent.publish
      (responseTopicFor (softwareOperationFromStr operation_string))
      (SoftwareRequestResponse.mk id SoftwareOperationResultStatus.Failed
        (some "unfinished operation request") none none)]
  | _, _ => []

/-- Effect of the agent's events on the journal: `storeState` overwrites
it, `clearState` empties it, publications leave it untouched. -/
def applyAgentEvent (j : Except Unit AgentState) :
    AgentEvent → Except Unit AgentState
  | AgentEvent.storeState st => Except.ok st
  | AgentEvent.clearState => Except.ok (AgentState.mk none none)
  | AgentEvent.publish _ _ => j
  | AgentEvent.publishRaw _ _ => j

/-- Fold `applyAgentEvent` over an event list. -/
def applyAgentEvents (j : Except Unit AgentState)
    (evs : List AgentEvent) : Except Unit AgentState :=
  evs.foldl applyAgentEvent j

/-- Counterexample to C5 as stated: at startup with the live journal entry
`(3, update)`, `check_state_store` publishes the expected `Failed`
response but emits no clear, so the journal afterwards still holds the
live entry instead of being empty. -/
theorem claim_C5_counterexample :
    check_state_store
        (Except.ok (AgentState.mk (some 3) (some "update"))) =
      [AgentEvent.publish RESPONSE_TOPIC_UPDATE
        (SoftwareRequestResponse.mk 3 SoftwareOperationResultStatus.Failed
          (some "unfinished operation request") none none)]
    ∧ applyAgentEvents
        (Except.ok (AgentState.mk (some 3) (some "update")))
        (check_state_store
          (Except.ok (AgentState.mk (some 3) (some "update")))) =
      Except.ok (AgentState.mk (some 3) (some "update"))
    ∧ (AgentState.mk (some 3) (some "update")) ≠ (AgentState.mk none none) := by
  refine ⟨rfl, rfl, by decide⟩

/-- C5 (amended): at startup, a live journal entry `(id, kind)` makes the
agent publish exactly one `Failed` response with reason
`unfinished operation request` carrying that id on the response topic
corresponding to `kind`; the journal is left as it was (it is NOT
cleared by this startup check); a load failure or an incomplete entry
publishes nothing. -/
theorem claim_C5_startup_journal (loaded : Except Unit AgentState)
    (id : Nat) (opStr : String)
    (hload : loaded = Except.ok (AgentState.mk (some id) (some opStr))) :
    check_state_store loaded =
      [AgentEvent.publish
        (responseTopicFor (softwareOperationFromStr opStr))
        (SoftwareRequestResponse.mk id SoftwareOperationResultStatus.Failed
          (some "unfinished operation request") none none)]
    ∧ applyAgentEvents loaded (check_state_store loaded) = loaded
    ∧ check_state_store (Except.error ()) = []
    ∧ (∀ op, check_state_store (Except.ok (AgentState.mk none op)) = []) := by
  subst hload
  refine ⟨rfl, rfl, rfl, ?_⟩
  intro op
  cases op <;> rfl

theorem claim_C5_startup_journal_witness :
    ((Except.ok (AgentState.mk (some 7) (some "list")) :
        Except Unit AgentState) =
      Except.ok (AgentState.mk (some 7) (some "list")))
    ∧ check_state_store
        (Except.ok (AgentState.mk (some 7) (some "list"))) =
      [AgentEvent.publish
        (responseTopicFor (softwareOperationFromStr "list"))
        (SoftwareRequestResponse.mk 7 SoftwareOperationResultStatus.Failed
          (some "unfinished operation request") none none)]
    ∧ applyAgentEvents (Except.ok (AgentState.mk (some 7) (some "list")))
        (check_state_store
          (Except.ok (AgentState.mk (some 7) (some "list")))) =
      Except.ok (AgentState.mk (some 7) (some "list"))
    ∧ check_state_store (Except.error ()) = []
    ∧ (∀ op, check_state_store (Except.ok (AgentState.mk none op)) = []) :=
  ⟨rfl,
    (claim_C5_startup_journal
      (Except.ok (AgentState.mk (some 7) (some "list"))) 7 "list" rfl).1,
    (claim_C5_startup_journal
      (Except.ok (AgentState.mk (some 7) (some "list"))) 7 "list" rfl).2.1,
    (claim_C5_startup_journal
      (Except.ok (AgentState.mk (some 7) (some "list"))) 7 "list" rfl).2.2.1,
    (claim_C5_startup_journal
      (Except.ok (AgentState.mk (some 7) (some "list"))) 7 "list" rfl).2.2.2⟩
/-- `SoftwareRequestUpdateAction` (install or remove). -/
inductive SoftwareRequestUpdateAction where
  | Install
  | Remove
deriving DecidableEq, Repr

/-- `SoftwareRequestUpdateModule`. -/
structure SoftwareRequestUpdateModule where
  name : String
  version : Option String
  action : SoftwareRequestUpdateAction
  url : Option String
deriving DecidableEq, Repr

/-- `SoftwareRequestUpdateList`: the per-plugin-type block of an update
request. -/
structure SoftwareRequestUpdateList where
  plugin_type : String
  list : List SoftwareRequestUpdateModule
deriving DecidableEq, Repr

/-- `SoftwareRequestUpdate`: a software update request. -/
structure SoftwareRequestUpdate where
  id : Nat
  update_list : List SoftwareRequestUpdateList
deriving DecidableEq, Repr

/-- Behaviour of the external plugins collaborator
(`ExternalPlugins` / `ExternalPluginCommand`, which shell out to
per-package-manager executables): whether a software type is known to the
registry, and the outcomes of `prepare`, `install`, `remove`, `finalize`
and the aggregate `list`. -/
structure PluginsBehavior where
  known : String → Bool
  prepareRes : String → Except String Unit
  installRes : String → SoftwareRequestUpdateModule → Except String Unit
  removeRes : String → SoftwareRequestUpdateModule → Except String Unit
  finalizeRes : String → Except String Unit
  listRes : Except String (List SoftwareListResponseList)

/-- `SmAgent::install_or_remove`: run each module's install or remove; on
a failure set the response reason and record the module in the failure
list (the source fills `software_type` with the module name).  Returns
the final reason and the accumulated failed modules. -/
def install_or_remove (pb : PluginsBehavior) (plugin_type : String) :
    List SoftwareRequestUpdateModule → Option String →
    List SoftwareListModule → Option String × List SoftwareListModule
  | [], reason, acc => (reason, acc)
  | m :: rest, reason, acc =>
    match m.action with
    | SoftwareRequestUpdateAction.Install =>
      match pb.installRes plugin_type m with
      | Except.error _ =>
        install_or_remove pb plugin_type rest
          (some "Module installation failed")
          (acc ++ [SoftwareListModule.mk m.name m.name m.version])
      | Except.ok _ => install_or_remove pb plugin_type rest reason acc
    | SoftwareRequestUpdateAction.Remove =>
      match pb.removeRes plugin_type m with
      | Except.error _ =>
        install_or_remove pb plugin_type rest
          (some "Module removal failed")
          (acc ++ [SoftwareListModule.mk m.name m.name m.version])
      | Except.ok _ => install_or_remove pb plugin_type rest reason acc

/-- Outcome of the update loop: either every plugin block completed
(`done` with the events emitted so far, the threaded response and the
per-plugin failures records), or the handler left the loop early
(`aborted`): an unknown software type panics on `.unwrap()`, and a
`finalize` error propagates out of the handler with `?`. -/
inductive UpdateLoopOutcome where
  | done (events : List AgentEvent) (response : SoftwareRequestResponse)
      (failures : List SoftwareListResponseList)
  | aborted (events : List AgentEvent)
deriving DecidableEq, Repr

/-- The body of `handle_software_update_request`'s `for` loop over
`request.update_list`, threading the response, the `failures` vector and
the emitted events.  A `prepare` error sets the reason and publishes the
(still `Failed`) response but does not leave the loop; after the modules
are processed a failures record is pushed for the plugin type even when
no module failed. -/
def updateLoop (pb : PluginsBehavior) (response_topic : String) :
    List SoftwareRequestUpdateList → SoftwareRequestResponse →
    List SoftwareListResponseList → List AgentEvent → UpdateLoopOutcome
  | [], response, failures, events =>
    UpdateLoopOutcome.done events response failures
  | item :: rest, response, failures, events =>
    if pb.known item.plugin_type then
      let prep : List AgentEvent × SoftwareRequestResponse :=
        match pb.prepareRes item.plugin_type with
        | Except.error e =>
          let r := { response with
            reason := some ("Failed prepare stage: " ++ e) }
          (events ++ [AgentEvent.publish response_topic r], r)
        | Except.ok _ => (events, response)
      let ir := install_or_remove pb item.plugin_type item.list
        prep.2.reason []
      let response2 := { prep.2 with reason := ir.1 }
      match pb.finalizeRes item.plugin_type with
      | Except.error _ => UpdateLoopOutcome.aborted prep.1
      | Except.ok _ =>
        updateLoop pb response_topic rest response2
          (failures ++ [SoftwareListResponseList.mk item.plugin_type ir.2])
          prep.1
    else
      UpdateLoopOutcome.aborted events

/-- `SmAgent::finalize_response`: set the status to `Successful` iff the
failures vector is empty, then attach the inventory and the failures. -/
def finalize_response (response : SoftwareRequestResponse)
    (software_list failures : List SoftwareListResponseList) :
    SoftwareRequestResponse :=
  let r1 := if failures.isEmpty then
      { response with status := SoftwareOperationResultStatus.Successful }
    else response
  { r1 with
    current_software_list := some software_list
    failures := some failures }

/-- The `Executing` response published by
`SmAgent::publish_status_executing`. -/
def executingResponse (id : Nat) : SoftwareRequestResponse :=
  SoftwareRequestResponse.mk id SoftwareOperationResultStatus.Executing
    none none none

/-- `SmAgent::handle_software_update_request` as the sequence of journal
and MQTT events it performs.  On a parse failure the raw error text is
published and nothing else happens.  Otherwise: store the journal entry,
publish `Executing`, run the update loop, obtain the inventory from the
plugins' `list` (an error there propagates out before any terminal
status), publish the finalized response, and clear the journal. -/
def handle_software_update_request (pb : PluginsBehavior)
    (parse : Except String SoftwareRequestUpdate) : List AgentEvent :=
  match parse with
  | Except.error e => [AgentEvent.publishRaw RESPONSE_TOPIC_UPDATE e]
  | Except.ok request =>
    let events0 : List AgentEvent :=
      [AgentEvent.storeState
        (AgentState.mk (some request.id) (some "update")),
       AgentEvent.publish RESPONSE_TOPIC_UPDATE
        (executingResponse request.id)]
    let response0 := SoftwareRequestResponse.mk request.id
      SoftwareOperationResultStatus.Failed none none none
    match updateLoop pb RESPONSE_TOPIC_UPDATE request.update_list
        response0 [] [] with
    | UpdateLoopOutcome.aborted events => events0 ++ events
    | UpdateLoopOutcome.done events response failures =>
      match pb.listRes with
      | Except.error _ => events0 ++ events
      | Except.ok software_list =>
        events0 ++ events ++
          [AgentEvent.publish RESPONSE_TOPIC_UPDATE
            (finalize_response response software_list failures),
           AgentEvent.clearState]

/-- Event classifiers used by the ordering claims. -/
def AgentEvent.isClear : AgentEvent → Bool
  | AgentEvent.clearState => true
  | _ => false

/-- A publication of a terminal (`Successful` or `Failed`) status. -/
def AgentEvent.isTerminalPublish : AgentEvent → Bool
  | AgentEvent.publish _ r =>
    (r.status == SoftwareOperationResultStatus.Successful) ||
      (r.status == SoftwareOperationResultStatus.Failed)
  | _ => false

/-- A publication of an `Executing` status. -/
def AgentEvent.isExecutingPublish : AgentEvent → Bool
  | AgentEvent.publish _ r =>
    r.status == SoftwareOperationResultStatus.Executing
  | _ => false

/-- Checker: no terminal status is published before an `Executing` one
has been (the flag records whether `Executing` has been seen). -/
def executingBeforeTerminal : List AgentEvent → Bool → Bool
  | [], _ => true
  | e :: rest, seenExec =>
    if e.isTerminalPublish && !seenExec then false
    else executingBeforeTerminal rest (seenExec || e.isExecutingPublish)

/-- Checker: the journal is cleared only after a terminal status has been
published (the flag records whether a terminal publish has been seen). -/
def clearAfterTerminal : List AgentEvent → Bool → Bool
  | [], _ => true
  | e :: rest, seenTerminal =>
    if e.isClear && !seenTerminal then false
    else clearAfterTerminal rest (seenTerminal || e.isTerminalPublish)
/-- The events carried by an update-loop outcome. -/
def UpdateLoopOutcome.events : UpdateLoopOutcome → List AgentEvent
  | UpdateLoopOutcome.done e _ _ => e
  | UpdateLoopOutcome.aborted e => e

/-- Shape of the update loop: it only appends publications of the
response (whose status it never changes) to the event list, and when it
completes, the threaded response still has the initial status. -/
theorem updateLoop_events_shape (pb : PluginsBehavior) (rt : String)
    (items : List SoftwareRequestUpdateList) :
    ∀ (response : SoftwareRequestResponse)
      (failures : List SoftwareListResponseList)
      (events : List AgentEvent),
      ∃ extra,
        (updateLoop pb rt items response failures events).events =
          events ++ extra
        ∧ (∀ e ∈ extra, ∃ r, e = AgentEvent.publish rt r ∧
            r.status = response.status)
        ∧ (∀ evs' resp' fails',
            updateLoop pb rt items response failures events =
              UpdateLoopOutcome.done evs' resp' fails' →
            resp'.status = response.status) := by
  induction items with
  | nil =>
    intro response failures events
    refine ⟨[], by simp [updateLoop, UpdateLoopOutcome.events], by simp, ?_⟩
    intro evs' resp' fails' h
    simp only [updateLoop, UpdateLoopOutcome.done.injEq] at h
    rw [← h.2.1]
  | cons item rest ih =>
    intro response failures events
    by_cases hk : pb.known item.plugin_type
    · cases hp : pb.prepareRes item.plugin_type with
      | ok u =>
        cases hf : pb.finalizeRes item.plugin_type with
        | error e =>
          refine ⟨[], ?_, by simp, ?_⟩
          · simp [updateLoop, hk, hp, hf, UpdateLoopOutcome.events]
          · intro evs' resp' fails' h
            simp [updateLoop, hk, hp, hf] at h
        | ok u' =>
          obtain ⟨extra, h1, h2, h3⟩ := ih
            { response with reason := (install_or_remove pb item.plugin_type item.list response.reason []).1 }
            (failures ++ [SoftwareListResponseList.mk item.plugin_type
              (install_or_remove pb item.plugin_type item.list
                response.reason []).2])
            events
          refine ⟨extra, ?_, ?_, ?_⟩
          · rw [← h1]
            simp [updateLoop, hk, hp, hf]
          · intro e he
            obtain ⟨r, hr, hs⟩ := h2 e he
            exact ⟨r, hr, hs⟩
          · intro evs' resp' fails' h
            apply h3 evs' resp' fails'
            rw [← h]
            simp [updateLoop, hk, hp, hf]
      | error e =>
        cases hf : pb.finalizeRes item.plugin_type with
        | error e' =>
          refine ⟨[AgentEvent.publish rt
            { response with reason := some ("Failed prepare stage: " ++ e) }], ?_, ?_, ?_⟩
          · simp [updateLoop, hk, hp, hf, UpdateLoopOutcome.events]
          · intro ev hev
            simp only [List.mem_singleton] at hev
            exact ⟨_, hev, rfl⟩
          · intro evs' resp' fails' h
            simp [updateLoop, hk, hp, hf] at h
        | ok u' =>
          obtain ⟨extra, h1, h2, h3⟩ := ih
            { response with reason := (install_or_remove pb item.plugin_type item.list (some ("Failed prepare stage: " ++ e)) []).1 }
            (failures ++ [SoftwareListResponseList.mk item.plugin_type
              (install_or_remove pb item.plugin_type item.list
                (some ("Failed prepare stage: " ++ e)) []).2])
            (events ++ [AgentEvent.publish rt
              { response with reason := some ("Failed prepare stage: " ++ e) }])
          refine ⟨AgentEvent.publish rt
              { response with reason := some ("Failed prepare stage: " ++ e) } :: extra, ?_, ?_, ?_⟩
          · rw [List.append_cons, ← h1]
            simp [updateLoop, hk, hp, hf]
          · intro ev hev
            rcases List.mem_cons.mp hev with hev | hev
            · exact ⟨_, hev, rfl⟩
            · obtain ⟨r, hr, hs⟩ := h2 ev hev
              exact ⟨r, hr, hs⟩
          · intro evs' resp' fails' h
            apply h3 evs' resp' fails'
            rw [← h]
            simp [updateLoop, hk, hp, hf]
    · refine ⟨[], ?_, by simp, ?_⟩
      · simp [updateLoop, hk, UpdateLoopOutcome.events]
      · intro evs' resp' fails' h
        simp [updateLoop, hk] at h

theorem executingBeforeTerminal_of_seen (l : List AgentEvent) :
    executingBeforeTerminal l true = true := by
  induction l with
  | nil => rfl
  | cons e rest ih => simp [executingBeforeTerminal, ih]

theorem clearAfterTerminal_of_no_clear (l : List AgentEvent) :
    ∀ b, (∀ e ∈ l, e.isClear = false) → clearAfterTerminal l b = true := by
  induction l with
  | nil => intro b _; rfl
  | cons e rest ih =>
    intro b h
    have he := h e (List.mem_cons_self e rest)
    simp only [clearAfterTerminal, he, Bool.false_and, Bool.false_eq_true,
      if_false]
    exact ih _ (fun x hx => h x (List.mem_cons_of_mem e hx))

theorem clearAfterTerminal_shape (pre : List AgentEvent) :
    ∀ (b : Bool), (∀ e ∈ pre, e.isClear = false) →
    ∀ (topic : String) (r : SoftwareRequestResponse),
      (AgentEvent.publish topic r).isTerminalPublish = true →
      clearAfterTerminal
        (pre ++ [AgentEvent.publish topic r, AgentEvent.clearState]) b =
        true := by
  induction pre with
  | nil =>
    intro b _ topic r hterm
    simp [clearAfterTerminal, AgentEvent.isClear, hterm]
  | cons e rest ih =>
    intro b h topic r hterm
    have he := h e (List.mem_cons_self e rest)
    simp only [List.cons_append, clearAfterTerminal, he, Bool.false_and,
      Bool.false_eq_true, if_false]
    exact ih _ (fun x hx => h x (List.mem_cons_of_mem e hx)) topic r hterm
/-- C7: for every accepted (successfully parsed) software-update request,
the journal entry is written before the `Executing` status is published
(the event trace starts `storeState` then `publish Executing`), no
terminal (`Successful`/`Failed`) status is published before `Executing`,
and the journal is cleared only after a terminal status has been
published. -/
theorem claim_C7_update_lifecycle_ordering (pb : PluginsBehavior)
    (parse : Except String SoftwareRequestUpdate)
    (request : SoftwareRequestUpdate)
    (hparse : parse = Except.ok request) :
    (∃ rest, handle_software_update_request pb parse =
        AgentEvent.storeState
          (AgentState.mk (some request.id) (some "update")) ::
        AgentEvent.publish RESPONSE_TOPIC_UPDATE
          (executingResponse request.id) :: rest)
    ∧ executingBeforeTerminal
        (handle_software_update_request pb parse) false = true
    ∧ clearAfterTerminal
        (handle_software_update_request pb parse) false = true := by
  subst hparse
  cases hloop : updateLoop pb RESPONSE_TOPIC_UPDATE request.update_list
      (SoftwareRequestResponse.mk request.id
        SoftwareOperationResultStatus.Failed none none none) [] [] with
  | aborted events =>
    obtain ⟨extra, h1, h2, h3⟩ := updateLoop_events_shape pb
      RESPONSE_TOPIC_UPDATE request.update_list
      (SoftwareRequestResponse.mk request.id
        SoftwareOperationResultStatus.Failed none none none) [] []
    rw [hloop] at h1
    have hev : events = extra := by
      simpa [UpdateLoopOutcome.events] using h1
    subst hev
    have hextra_no_clear : ∀ e ∈ events, e.isClear = false := by
      intro e he
      obtain ⟨r, hr, -⟩ := h2 e he
      rw [hr]
      rfl
    have hh : handle_software_update_request pb (Except.ok request) =
        AgentEvent.storeState
          (AgentState.mk (some request.id) (some "update")) ::
        AgentEvent.publish RESPONSE_TOPIC_UPDATE
          (executingResponse request.id) :: events := by
      simp [handle_software_update_request, hloop]
    refine ⟨⟨events, hh⟩, ?_, ?_⟩
    · rw [hh]
      simp only [executingBeforeTerminal, AgentEvent.isTerminalPublish,
        AgentEvent.isExecutingPublish, executingResponse]
      exact executingBeforeTerminal_of_seen events
    · rw [hh]
      simp only [clearAfterTerminal, AgentEvent.isClear,
        AgentEvent.isTerminalPublish, executingResponse]
      exact clearAfterTerminal_of_no_clear events false hextra_no_clear
  | done events response failures =>
    obtain ⟨extra, h1, h2, h3⟩ := updateLoop_events_shape pb
      RESPONSE_TOPIC_UPDATE request.update_list
      (SoftwareRequestResponse.mk request.id
        SoftwareOperationResultStatus.Failed none none none) [] []
    rw [hloop] at h1
    have hev : events = extra := by
      simpa [UpdateLoopOutcome.events] using h1
    subst hev
    have hextra_no_clear : ∀ e ∈ events, e.isClear = false := by
      intro e he
      obtain ⟨r, hr, -⟩ := h2 e he
      rw [hr]
      rfl
    have hstatus : response.status = SoftwareOperationResultStatus.Failed :=
      h3 events response failures hloop
    cases hlist : pb.listRes with
    | error e =>
      have hh : handle_software_update_request pb (Except.ok request) =
          AgentEvent.storeState
            (AgentState.mk (some request.id) (some "update")) ::
          AgentEvent.publish RESPONSE_TOPIC_UPDATE
            (executingResponse request.id) :: events := by
        simp [handle_software_update_request, hloop, hlist]
      refine ⟨⟨events, hh⟩, ?_, ?_⟩
      · rw [hh]
        simp only [executingBeforeTerminal, AgentEvent.isTerminalPublish,
          AgentEvent.isExecutingPublish, executingResponse]
        exact executingBeforeTerminal_of_seen events
      · rw [hh]
        simp only [clearAfterTerminal, AgentEvent.isClear,
          AgentEvent.isTerminalPublish, executingResponse]
        exact clearAfterTerminal_of_no_clear events false hextra_no_clear
    | ok software_list =>
      have hterm : (AgentEvent.publish RESPONSE_TOPIC_UPDATE
          (finalize_response response software_list
            failures)).isTerminalPublish = true := by
        by_cases hfe : failures.isEmpty = true
        · simp [finalize_response, AgentEvent.isTerminalPublish, hfe]
        · simp only [Bool.not_eq_true] at hfe
          simp [finalize_response, AgentEvent.isTerminalPublish, hfe,
            hstatus]
      have hh : handle_software_update_request pb (Except.ok request) =
          AgentEvent.storeState
            (AgentState.mk (some request.id) (some "update")) ::
          AgentEvent.publish RESPONSE_TOPIC_UPDATE
            (executingResponse request.id) ::
          (events ++
            [AgentEvent.publish RESPONSE_TOPIC_UPDATE
              (finalize_response response software_list failures),
             AgentEvent.clearState]) := by
        simp [handle_software_update_request, hloop, hlist]
      refine ⟨⟨_, hh⟩, ?_, ?_⟩
      · rw [hh]
        simp only [executingBeforeTerminal, AgentEvent.isTerminalPublish,
          AgentEvent.isExecutingPublish, executingResponse]
        exact executingBeforeTerminal_of_seen _
      · rw [hh]
        simp only [clearAfterTerminal, AgentEvent.isClear,
          AgentEvent.isTerminalPublish, executingResponse]
        exact clearAfterTerminal_shape events false hextra_no_clear _ _ hterm

theorem claim_C7_update_lifecycle_ordering_witness :
    ((Except.ok (SoftwareRequestUpdate.mk 1
        [SoftwareRequestUpdateList.mk "debian"
          [SoftwareRequestUpdateModule.mk "curl" (some "7.0")
            SoftwareRequestUpdateAction.Install none]]) :
        Except String SoftwareRequestUpdate) =
      Except.ok (SoftwareRequestUpdate.mk 1
        [SoftwareRequestUpdateList.mk "debian"
          [SoftwareRequestUpdateModule.mk "curl" (some "7.0")
            SoftwareRequestUpdateAction.Install none]]))
    ∧ ((∃ rest, handle_software_update_request
          (PluginsBehavior.mk (fun _ => true) (fun _ => Except.ok ())
            (fun _ _ => Except.ok ()) (fun _ _ => Except.ok ())
            (fun _ => Except.ok ())
            (Except.ok [SoftwareListResponseList.mk "debian"
              [SoftwareListModule.mk "debian" "curl" (some "7.0")]]))
          (Except.ok (SoftwareRequestUpdate.mk 1
            [SoftwareRequestUpdateList.mk "debian"
              [SoftwareRequestUpdateModule.mk "curl" (some "7.0")
                SoftwareRequestUpdateAction.Install none]])) =
          AgentEvent.storeState (AgentState.mk (some 1) (some "update")) ::
          AgentEvent.publish RESPONSE_TOPIC_UPDATE (executingResponse 1) ::
          rest)
      ∧ executingBeforeTerminal
          (handle_software_update_request
            (PluginsBehavior.mk (fun _ => true) (fun _ => Except.ok ())
              (fun _ _ => Except.ok ()) (fun _ _ => Except.ok ())
              (fun _ => Except.ok ())
              (Except.ok [SoftwareListResponseList.mk "debian"
                [SoftwareListModule.mk "debian" "curl" (some "7.0")]]))
            (Except.ok (SoftwareRequestUpdate.mk 1
              [SoftwareRequestUpdateList.mk "debian"
                [SoftwareRequestUpdateModule.mk "curl" (some "7.0")
                  SoftwareRequestUpdateAction.Install none]]))) false = true
      ∧ clearAfterTerminal
          (handle_software_update_request
            (PluginsBehavior.mk (fun _ => true) (fun _ => Except.ok ())
              (fun _ _ => Except.ok ()) (fun _ _ => Except.ok ())
              (fun _ => Except.ok ())
              (Except.ok [SoftwareListResponseList.mk "debian"
                [SoftwareListModule.mk "debian" "curl" (some "7.0")]]))
            (Except.ok (SoftwareRequestUpdate.mk 1
              [SoftwareRequestUpdateList.mk "debian"
                [SoftwareRequestUpdateModule.mk "curl" (some "7.0")
                  SoftwareRequestUpdateAction.Install none]]))) false =
          true) :=
  ⟨rfl, claim_C7_update_lifecycle_ordering
    (PluginsBehavior.mk (fun _ => true) (fun _ => Except.ok ())
      (fun _ _ => Except.ok ()) (fun _ _ => Except.ok ())
      (fun _ => Except.ok ())
      (Except.ok [SoftwareListResponseList.mk "debian"
        [SoftwareListModule.mk "debian" "curl" (some "7.0")]]))
    (Except.ok (SoftwareRequestUpdate.mk 1
      [SoftwareRequestUpdateList.mk "debian"
        [SoftwareRequestUpdateModule.mk "curl" (some "7.0")
          SoftwareRequestUpdateAction.Install none]]))
    (SoftwareRequestUpdate.mk 1
      [SoftwareRequestUpdateList.mk "debian"
        [SoftwareRequestUpdateModule.mk "curl" (some "7.0")
          SoftwareRequestUpdateAction.Install none]])
    rfl⟩

/-- C8 is contradicted by the code: on a software-update request whose
single module installs successfully (every per-module invocation
succeeds, every plugin call succeeds), the terminal response published by
the agent has status `Failed`, not `Successful` — the loop pushes a
failures record for the plugin type even though its module list is empty,
so `finalize_response`'s `failures.is_empty()` test is false. -/
theorem claim_C8_successful_update_reports_failed :
    handle_software_update_request
      (PluginsBehavior.mk (fun _ => true) (fun _ => Except.ok ())
        (fun _ _ => Except.ok ()) (fun _ _ => Except.ok ())
        (fun _ => Except.ok ())
        (Except.ok [SoftwareListResponseList.mk "debian"
          [SoftwareListModule.mk "debian" "curl" (some "7.0")]]))
      (Except.ok (SoftwareRequestUpdate.mk 1
        [SoftwareRequestUpdateList.mk "debian"
          [SoftwareRequestUpdateModule.mk "curl" (some "7.0")
            SoftwareRequestUpdateAction.Install none]])) =
      [AgentEvent.storeState (AgentState.mk (some 1) (some "update")),
       AgentEvent.publish RESPONSE_TOPIC_UPDATE (executingResponse 1),
       AgentEvent.publish RESPONSE_TOPIC_UPDATE
         (SoftwareRequestResponse.mk 1 SoftwareOperationResultStatus.Failed
           none
           (some [SoftwareListResponseList.mk "debian"
             [SoftwareListModule.mk "debian" "curl" (some "7.0")]])
           (some [SoftwareListResponseList.mk "debian" []])),
       AgentEvent.clearState]
    ∧ SoftwareOperationResultStatus.Failed ≠
        SoftwareOperationResultStatus.Successful :=
  ⟨rfl, by decide⟩
/-! ## SmartREST dispatch and the converter's `try_convert` -/

/-- An entry of the operation registry (`mapper::operations::Operation`):
a name, the 3-character SmartREST template id and an optional command. -/
structure Operation where
  name : String
  template : String
  command : Option String
deriving DecidableEq, Repr

/-- `Operations::matching_smartrest_template`. -/
def matching_smartrest_template (ops : List Operation)
    (template : String) : Option Operation :=
  ops.find? (fun op => op.template == template)

/-- `agent_interface::DownloadInfo`: a URL and an optional bearer token
(`with_auth(Auth::new_bearer(..))` would set it). -/
structure DownloadInfo where
  url : String
  auth : Option String
deriving DecidableEq, Repr

/-- `DownloadInfo::new(url)`: a plain URL with no auth attached. -/
def DownloadInfo.new (url : String) : DownloadInfo :=
  DownloadInfo.mk url none

/-- A module of a software-update request on the converter side (the
`agent_interface` shape iterated by `forward_software_request`). -/
structure SoftwareModuleUpdate where
  name : String
  version : Option String
  url : Option DownloadInfo
deriving DecidableEq, Repr

/-- One `update_list` block: a plugin type and its modules. -/
structure SoftwareUpdateListItem where
  plugin_type : String
  modules : List SoftwareModuleUpdate
deriving DecidableEq, Repr

/-- The software-update request forwarded to the agent. -/
structure SoftwareUpdateRequest where
  update_list : List SoftwareUpdateListItem
deriving DecidableEq, Repr

/-- `c8y/converter.rs` error type (`SMCumulocityMapperError`). -/
inductive SMCumulocityMapperError where
  | FromSmartRest (reason : String)
  | FromHttp (reason : String)
  | UnknownOperation (template : String)
deriving DecidableEq, Repr

/-- `RequestTopic::SoftwareUpdateRequest`. -/
def SOFTWARE_UPDATE_REQUEST_TOPIC : String :=
  "tedge/commands/req/software/update"

/-- `RequestTopic::RestartRequest`. -/
def RESTART_REQUEST_TOPIC : String := "tedge/commands/req/control/restart"

/-- The URL rewriting loop of `forward_software_request`: every module
with a URL gets it rebuilt as `DownloadInfo::new(url)` — a plain URL with
no auth.  The tenant-domain check and the `with_auth(bearer(token))`
rewrite are commented out in the source, so no module ever receives the
token, regardless of its host. -/
def rewriteModuleUrls (req : SoftwareUpdateRequest) :
    SoftwareUpdateRequest :=
  SoftwareUpdateRequest.mk (req.update_list.map (fun l =>
    SoftwareUpdateListItem.mk l.plugin_type (l.modules.map (fun m =>
      match m.url with
      | some u => SoftwareModuleUpdate.mk m.name m.version
          (some (DownloadInfo.new u.url))
      | none => m))))

/-- `forward_software_request` (converter.rs): parse the SmartREST 528
payload (collaborator `parse528` stands for
`SmartRestUpdateSoftware::from_smartrest` + `to_thin_edge_json`), fetch a
JWT token from the HTTP proxy, rewrite the module URLs, and return
exactly one request on the software-update command topic.  The message
payload is kept structured (`to_json` is left abstract). -/
def forward_software_request
    (parse528 : String → Except String SoftwareUpdateRequest)
    (jwtToken : Except String String) (smartrest : String) :
    Except SMCumulocityMapperError
      (List (String × SoftwareUpdateRequest)) :=
  match parse528 smartrest with
  | Except.error e => Except.error (SMCumulocityMapperError.FromSmartRest e)
  | Except.ok software_update_request =>
    match jwtToken with
    | Except.error e => Except.error (SMCumulocityMapperError.FromHttp e)
    | Except.ok _token =>
      Except.ok [(SOFTWARE_UPDATE_REQUEST_TOPIC,
        rewriteModuleUrls software_update_request)]

/-- `forward_restart_request`: validate the SmartREST 510 payload and
forward one restart request (its fixed JSON rendering is the parameter
`render510`). -/
def forward_restart_request (parse510 : String → Except String Unit)
    (render510 : String) (smartrest : String) :
    Except SMCumulocityMapperError (List Message) :=
  match parse510 smartrest with
  | Except.error e => Except.error (SMCumulocityMapperError.FromSmartRest e)
  | Except.ok _ => Except.ok [Message.new RESTART_REQUEST_TOPIC render510]

/-- `process_smartrest`: the first three characters of the payload are the
template id; `528` forwards a software update, `510` a restart; any other
id is looked up in the operation registry — a hit spawns the registered
command (returning no messages), a miss is an `UnknownOperation` error. -/
def process_smartrest
    (parse528 : String → Except String SoftwareUpdateRequest)
    (render528 : SoftwareUpdateRequest → String)
    (jwtToken : Except String String)
    (parse510 : String → Except String Unit) (render510 : String)
    (operations : List Operation) (payload : String) :
    Except SMCumulocityMapperError (List Message) :=
  let message_id := strTake payload 3
  if message_id = "528" then
    match forward_software_request parse528 jwtToken payload with
    | Except.error e => Except.error e
    | Except.ok pairs =>
      Except.ok (pairs.map (fun p => Message.new p.1 (render528 p.2)))
  else if message_id = "510" then
    forward_restart_request parse510 render510 payload
  else
    match matching_smartrest_template operations message_id with
    | some _op => Except.ok []
    | none => Except.error
        (SMCumulocityMapperError.UnknownOperation message_id)

/-- `CumulocityConverter::try_convert_alarm` (the method on the converter
struct, used by `try_convert` for `tedge/alarms` topics): serialize the
alarm to one SmartREST message on `c8y/s/us`; no state is touched. -/
def cc_try_convert_alarm
    (serializeAlarm : String → String → Except String String)
    (input : Message) : Except ConversionError (List Message) :=
  match serializeAlarm input.topic input.payload with
  | Except.error reason =>
    Except.error (ConversionError.InvalidAlarm reason)
  | Except.ok smartrest_alarm =>
    Except.ok [Message.new SMARTREST_PUBLISH_TOPIC smartrest_alarm]

/-- Default `SizeThreshold` (16 KiB). -/
def DEFAULT_SIZE_THRESHOLD : Nat := 16384

/-- Modelled from the spec: `SizeThreshold::validate`
(`crates/core/tedge_mapper/src/mapper/size_threshold.rs` is not under
`src/`; only its caller in `try_convert` and the repository test
`check_c8y_threshold_packet_size` are).  A payload longer than the
threshold fails with `SizeExceeded { actual, threshold }`. -/
def sizeThresholdValidate (threshold : Nat) (input : String) :
    Except ConversionError Unit :=
  if input.length > threshold then
    Except.error (ConversionError.SizeExceeded input.length threshold)
  else Except.ok ()

/-- `MapperSubscribeTopic`: response topics and the cloud SmartREST
topic. -/
inductive MapperSubscribeTopic where
  | SoftwareListResponse
  | SoftwareUpdateResponse
  | RestartResponse
  | C8y
deriving DecidableEq, Repr

/-- `ResponseTopic::RestartResponse`. -/
def RESTART_RESPONSE_TOPIC : String := "tedge/commands/res/control/restart"

/-- Cloud-inbound SmartREST topic (`C8yTopic::SmartRestRequest`). -/
def C8Y_SMARTREST_REQUEST_TOPIC : String := "c8y/s/ds"

/-- Modelled from the spec: `MapperSubscribeTopic::try_from` (the topic
module `c8y/topic.rs` is not under `src/`).  The recognized topics are
the three command response topics and the cloud SmartREST topic; any
other topic makes the conversion fail (and `try_convert`'s
`try_into().unwrap()` panic). -/
def mapperSubscribeTopicOf (topic : String) :
    Option MapperSubscribeTopic :=
  if topic = RESPONSE_TOPIC_LIST then
    some MapperSubscribeTopic.SoftwareListResponse
  else if topic = RESPONSE_TOPIC_UPDATE then
    some MapperSubscribeTopic.SoftwareUpdateResponse
  else if topic = RESTART_RESPONSE_TOPIC then
    some MapperSubscribeTopic.RestartResponse
  else if topic = C8Y_SMARTREST_REQUEST_TOPIC then
    some MapperSubscribeTopic.C8y
  else none

/-- The collaborators of `CumulocityConverter` (size threshold
configuration, the external codecs, the HTTP proxy's JWT token and the
operation registry). -/
structure Collaborators where
  threshold : Nat
  translateRoot : String → Except String String
  translateChild : String → String → Except String String
  serializeAlarm : String → String → Except String String
  parse528 : String → Except String SoftwareUpdateRequest
  render528 : SoftwareUpdateRequest → String
  jwtToken : Except String String
  parse510 : String → Except String Unit
  render510 : String
  operations : List Operation

/-- Outcome of `try_convert`: a normal result (new child set and
messages), a conversion error, or a panic (`unwrap()` on an `Err`). -/
inductive ConvOutcome where
  | ok (children : List String) (msgs : List Message)
  | error (e : ConversionError)
  | panicked
deriving DecidableEq, Repr

/-- `CumulocityConverter::try_convert`: validate the payload size first;
then route by topic: `tedge/measurements*` to the measurement codec,
`tedge/alarms*` to the alarm codec, otherwise parse the topic as a
subscription topic (`.unwrap()` panics on an unknown one) — response
topics yield no messages, and the cloud topic goes through
`process_smartrest` whose `Err` is `.unwrap()`ed (a panic). -/
def tryConvert (col : Collaborators) (children : List String)
    (message : Message) : ConvOutcome :=
  match sizeThresholdValidate col.threshold message.payload with
  | Except.error e => ConvOutcome.error e
  | Except.ok _ =>
    if strHasHead TEDGE_MEASUREMENTS_TOPIC message.topic then
      match try_convert_measurement col.translateRoot col.translateChild
          children message with
      | Except.ok r => ConvOutcome.ok r.1 r.2
      | Except.error e => ConvOutcome.error e
    else if strHasHead "tedge/alarms" message.topic then
      match cc_try_convert_alarm col.serializeAlarm message with
      | Except.ok msgs => ConvOutcome.ok children msgs
      | Except.error e => ConvOutcome.error e
    else
      match mapperSubscribeTopicOf message.topic with
      | some MapperSubscribeTopic.SoftwareListResponse =>
        ConvOutcome.ok children []
      | some MapperSubscribeTopic.SoftwareUpdateResponse =>
        ConvOutcome.ok children []
      | some MapperSubscribeTopic.RestartResponse =>
        ConvOutcome.ok children []
      | some MapperSubscribeTopic.C8y =>
        match process_smartrest col.parse528 col.render528 col.jwtToken
            col.parse510 col.render510 col.operations message.payload with
        | Except.ok msgs => ConvOutcome.ok children msgs
        | Except.error _ => ConvOutcome.panicked
      | none => ConvOutcome.panicked

/-- Modelled from the spec: the `Converter::convert` wrapper around
`try_convert` (`crate::mapper::converter` is not under `src/`): an `Ok`
passes its messages through; an `Err` becomes exactly one message on the
errors topic carrying the error rendering, with the state unchanged.  A
panic is not caught anywhere — the process dies; it is represented here
by an empty output with unchanged state. -/
def convert (col : Collaborators) (children : List String)
    (message : Message) : List String × List Message :=
  match tryConvert col children message with
  | ConvOutcome.ok ch msgs => (ch, msgs)
  | ConvOutcome.error e =>
    (children, [Message.new ERRORS_TOPIC (renderConversionError e)])
  | ConvOutcome.panicked => (children, [])
/-- C4: a payload longer than the configured threshold makes the
conversion fail with `SizeExceeded { actual, threshold }` before any
topic-specific conversion runs (whatever the topic, the state and the
collaborators); the wrapped conversion then produces exactly one message,
on `tedge/errors`, rendered as
"The input size A is too big. The threshold is T.", and nothing on any
other topic. -/
theorem claim_C4_size_gate (col : Collaborators) (children : List String)
    (message : Message) (h : col.threshold < message.payload.length) :
    tryConvert col children message =
      ConvOutcome.error (ConversionError.SizeExceeded
        message.payload.length col.threshold)
    ∧ convert col children message =
      (children, [Message.new ERRORS_TOPIC
        ("The input size " ++ toString message.payload.length ++
          " is too big. The threshold is " ++ toString col.threshold ++
          ".")])
    ∧ (convert col children message).2.length = 1
    ∧ ∀ m ∈ (convert col children message).2, m.topic = ERRORS_TOPIC := by
  have hval : sizeThresholdValidate col.threshold message.payload =
      Except.error (ConversionError.SizeExceeded message.payload.length
        col.threshold) := by
    simp [sizeThresholdValidate, h]
  have h1 : tryConvert col children message =
      ConvOutcome.error (ConversionError.SizeExceeded
        message.payload.length col.threshold) := by
    simp [tryConvert, hval]
  have h2 : convert col children message =
      (children, [Message.new ERRORS_TOPIC
        ("The input size " ++ toString message.payload.length ++
          " is too big. The threshold is " ++ toString col.threshold ++
          ".")]) := by
    simp [convert, h1, renderConversionError]
  refine ⟨h1, h2, by rw [h2]; rfl, ?_⟩
  rw [h2]
  intro m hm
  simp only [List.mem_singleton] at hm
  rw [hm]
  rfl

theorem claim_C4_size_gate_witness :
    ((Collaborators.mk 16384 (fun _ => Except.ok "")
        (fun _ _ => Except.ok "") (fun _ _ => Except.ok "")
        (fun _ => Except.error "x") (fun _ => "") (Except.ok "t")
        (fun _ => Except.ok ()) "" []).threshold <
      (Message.new "tedge/measurements"
        (String.mk (List.replicate 20480 'a'))).payload.length
      ∧ (Message.new "tedge/measurements"
          (String.mk (List.replicate 20480 'a'))).payload.length = 20480)
    ∧ tryConvert
        (Collaborators.mk 16384 (fun _ => Except.ok "")
          (fun _ _ => Except.ok "") (fun _ _ => Except.ok "")
          (fun _ => Except.error "x") (fun _ => "") (Except.ok "t")
          (fun _ => Except.ok ()) "" []) []
        (Message.new "tedge/measurements"
          (String.mk (List.replicate 20480 'a'))) =
      ConvOutcome.error (ConversionError.SizeExceeded
        (Message.new "tedge/measurements"
          (String.mk (List.replicate 20480 'a'))).payload.length 16384) :=
  ⟨⟨by
      show (16384 : Nat) < (List.replicate 20480 'a').length
      rw [List.length_replicate]
      decide,
    by
      show (List.replicate 20480 'a').length = 20480
      rw [List.length_replicate]⟩,
    (claim_C4_size_gate
      (Collaborators.mk 16384 (fun _ => Except.ok "")
        (fun _ _ => Except.ok "") (fun _ _ => Except.ok "")
        (fun _ => Except.error "x") (fun _ => "") (Except.ok "t")
        (fun _ => Except.ok ()) "" []) []
      (Message.new "tedge/measurements"
        (String.mk (List.replicate 20480 'a')))
      (by
        show (16384 : Nat) < (List.replicate 20480 'a').length
        rw [List.length_replicate]
        decide)).1⟩

/-- Counterexample to C6 as stated: for a 528 payload whose single module
has a download URL in the tenant's own domain and with the bearer token
"JWT-TOKEN" available from the HTTP client, the software-update request
forwarded by the converter carries the module URL with no auth at all —
the URL is never rewritten to carry the bearer token (for any
tenant-domain decision, since the code consults none). -/
theorem claim_C6_counterexample :
    forward_software_request
        (fun _ => Except.ok (SoftwareUpdateRequest.mk
          [SoftwareUpdateListItem.mk "debian"
            [SoftwareModuleUpdate.mk "curl" (some "7.0")
              (some (DownloadInfo.mk
                "https://my-tenant.example.com/curl.deb" none))]]))
        (Except.ok "JWT-TOKEN") "528,device,debian,curl,7.0" =
      Except.ok [(SOFTWARE_UPDATE_REQUEST_TOPIC,
        SoftwareUpdateRequest.mk
          [SoftwareUpdateListItem.mk "debian"
            [SoftwareModuleUpdate.mk "curl" (some "7.0")
              (some (DownloadInfo.mk
                "https://my-tenant.example.com/curl.deb" none))]])]
    ∧ (DownloadInfo.mk "https://my-tenant.example.com/curl.deb"
        none).auth ≠ some "JWT-TOKEN" :=
  ⟨rfl, by decide⟩

/-- C6 (amended): for every parsed SmartREST 528 software-update message,
the converter obtains a JWT token but rebuilds every module URL as a
plain `DownloadInfo` with no auth attached — the tenant-domain check and
the bearer-token rewrite are disabled (commented out) in the source — and
returns exactly one software-update request on the local command request
topic containing the modules with their URLs stripped of auth. -/
theorem claim_C6_forward_without_token
    (parse528 : String → Except String SoftwareUpdateRequest)
    (jwtToken : Except String String) (req : SoftwareUpdateRequest)
    (token smartrest : String)
    (hp : parse528 smartrest = Except.ok req)
    (ht : jwtToken = Except.ok token) :
    forward_software_request parse528 jwtToken smartrest =
      Except.ok [(SOFTWARE_UPDATE_REQUEST_TOPIC, rewriteModuleUrls req)]
    ∧ ∀ item ∈ (rewriteModuleUrls req).update_list, ∀ m ∈ item.modules,
        ∀ u, m.url = some u → u.auth = none := by
  constructor
  · simp [forward_software_request, hp, ht]
  · intro item hitem m hm u hu
    simp only [rewriteModuleUrls, List.mem_map] at hitem
    obtain ⟨l, -, hleq⟩ := hitem
    rw [← hleq] at hm
    simp only [List.mem_map] at hm
    obtain ⟨m0, -, hmeq⟩ := hm
    cases hmu : m0.url with
    | none =>
      rw [← hmeq] at hu
      simp only [hmu] at hu
      exact Option.noConfusion hu
    | some u0 =>
      rw [← hmeq] at hu
      simp only [hmu] at hu
      simp only [Option.some.injEq] at hu
      rw [← hu]
      rfl

theorem claim_C6_forward_without_token_witness :
    forward_software_request
        (fun _ => Except.ok (SoftwareUpdateRequest.mk
          [SoftwareUpdateListItem.mk "debian"
            [SoftwareModuleUpdate.mk "curl" (some "7.0")
              (some (DownloadInfo.mk
                "https://my-tenant.example.com/curl.deb" none))]]))
        (Except.ok "JWT-TOKEN") "528,device,debian,curl,7.0" =
      Except.ok [(SOFTWARE_UPDATE_REQUEST_TOPIC,
        rewriteModuleUrls (SoftwareUpdateRequest.mk
          [SoftwareUpdateListItem.mk "debian"
            [SoftwareModuleUpdate.mk "curl" (some "7.0")
              (some (DownloadInfo.mk
                "https://my-tenant.example.com/curl.deb" none))]]))]
    ∧ ∀ item ∈ (rewriteModuleUrls (SoftwareUpdateRequest.mk
          [SoftwareUpdateListItem.mk "debian"
            [SoftwareModuleUpdate.mk "curl" (some "7.0")
              (some (DownloadInfo.mk
                "https://my-tenant.example.com/curl.deb"
                none))]])).update_list,
        ∀ m ∈ item.modules, ∀ u, m.url = some u → u.auth = none :=
  claim_C6_forward_without_token
    (fun _ => Except.ok (SoftwareUpdateRequest.mk
      [SoftwareUpdateListItem.mk "debian"
        [SoftwareModuleUpdate.mk "curl" (some "7.0")
          (some (DownloadInfo.mk
            "https://my-tenant.example.com/curl.deb" none))]]))
    (Except.ok "JWT-TOKEN")
    (SoftwareUpdateRequest.mk
      [SoftwareUpdateListItem.mk "debian"
        [SoftwareModuleUpdate.mk "curl" (some "7.0")
          (some (DownloadInfo.mk
            "https://my-tenant.example.com/curl.deb" none))]])
    "JWT-TOKEN" "528,device,debian,curl,7.0" rfl rfl

/-- C9 is contradicted by the code: a cloud-inbound SmartREST payload
whose template id `999` is neither 528 nor 510 nor registered yields
`Err(UnknownOperation)` from `process_smartrest`, but `try_convert`
calls `.unwrap()` on that result, so the converter panics instead of
containing the error — the message loop is terminated and the next
message is not processed. -/
theorem claim_C9_unknown_template_panics :
    process_smartrest (fun _ => Except.error "no") (fun _ => "")
        (Except.ok "t") (fun _ => Except.ok ()) "" [] "999,foo" =
      Except.error (SMCumulocityMapperError.UnknownOperation "999")
    ∧ tryConvert
        (Collaborators.mk 16384 (fun _ => Except.ok "")
          (fun _ _ => Except.ok "") (fun _ _ => Except.ok "")
          (fun _ => Except.error "no") (fun _ => "") (Except.ok "t")
          (fun _ => Except.ok ()) "" []) []
        (Message.new C8Y_SMARTREST_REQUEST_TOPIC "999,foo") =
      ConvOutcome.panicked :=
  ⟨rfl, rfl⟩
